import Mathlib

/-!
Verification of the workout-statistics compilation core of the
`homeassistant-peloton-sensor` integration
(`custom_components/peloton/__init__.py`, function `compile_quant_data`
together with its inner helper `make_stat`).

The Python function is shallowly embedded here:

* JSON-like Python values are modelled by `JValue`; Python `dict` is an
  association list with last-one-wins insertion (`dinsert`) and
  first-match lookup (`dget`), which together model Python's
  overwrite-on-assignment semantics.
* Python numbers (`int`, `float`, `bool`) are modelled by the exact,
  unnormalised fraction type `PRat`; `float` arithmetic is idealised as
  exact rational arithmetic (the source only divides by the literal
  constants 60, 3600 and rounds to 4 decimal places).
* Fallible Python evaluation (attribute errors, key errors, type errors)
  is modelled in the `Except String` monad; `.error` marks a raised
  exception, the string is a rough description of the exception class.
* The wall-clock read `round(time.time())` inside the source is made an
  explicit integer parameter `now` of the embedded function.
-/

/-- Exact rational number with explicit (positive, by construction)
denominator and no normalisation.  Models Python numeric values; `float`
arithmetic is idealised as exact rational arithmetic. -/
structure PRat where
  num : Int
  den : Int
deriving DecidableEq

/-- Embeds a Python `int` into `PRat`. -/
def PRat.ofInt (n : Int) : PRat := ⟨n, 1⟩

/-- Python subtraction `a - b` on numbers (cross-multiplied, no
normalisation). -/
def PRat.sub (a b : PRat) : PRat := ⟨a.num * b.den - b.num * a.den, a.den * b.den⟩

/-- Python true division `a / k` by an integer literal (the source only
divides by the constants 60 and 3600). -/
def PRat.divInt (a : PRat) (k : Int) : PRat := ⟨a.num, a.den * k⟩

/-- Python comparison `a <= b` on numbers, valid for positive
denominators (all denominators built by this embedding are positive). -/
def PRat.le (a b : PRat) : Prop := a.num * b.den ≤ b.num * a.den

instance (a b : PRat) : Decidable (PRat.le a b) :=
  inferInstanceAs (Decidable (a.num * b.den ≤ b.num * a.den))

/-- Round-half-even to an integer (Python `round` tie-breaking), for a
fraction with positive denominator. -/
def round_half_even (q : PRat) : Int :=
  let f : Int := Int.fdiv q.num q.den
  let r2 : Int := 2 * (q.num - f * q.den)
  if r2 < q.den then f
  else if q.den < r2 then f + 1
  else if f % 2 = 0 then f else f + 1

/-- Python `round(x, 4)`: round to 4 decimal places (idealised to exact
arithmetic: the nearest multiple of 1/10000, ties to even). -/
def round_to_4 (q : PRat) : PRat :=
  ⟨round_half_even ⟨q.num * 10000, q.den⟩, 10000⟩

/-- JSON-like Python value: `None`, `bool`, `int`, `float`, `str`,
`list`, `dict`. -/
inductive JValue where
  | null
  | boolean (b : Bool)
  | int (n : Int)
  | float (q : PRat)
  | str (s : String)
  | list (xs : List JValue)
  | dict (d : List (String × JValue))

/-- First-match lookup in an association list; models Python
`d.get(k)` / `k in d` on a dict whose keys are unique. -/
def dget {α : Type} (d : List (String × α)) (k : String) : Option α :=
  match d with
  | [] => none
  | (k2, v) :: rest => if k2 = k then some v else dget rest k

/-- Replace-or-append insertion in an association list; models Python
`d[k] = v` (overwrites an existing binding in place, appends a new one). -/
def dinsert {α : Type} (d : List (String × α)) (k : String) (v : α) : List (String × α) :=
  match d with
  | [] => [(k, v)]
  | (k2, v2) :: rest => if k2 = k then (k2, v) :: rest else (k2, v2) :: dinsert rest k v

/-- Python truthiness of a value. -/
def truthy : JValue → Bool
  | .null => false
  | .boolean b => b
  | .int n => n != 0
  | .float q => q.num != 0
  | .str s => !s.data.isEmpty
  | .list xs => !xs.isEmpty
  | .dict d => !d.isEmpty

/-- Python `isinstance(v, int)` (`bool` is a subclass of `int`). -/
def is_int : JValue → Bool
  | .int _ => true
  | .boolean _ => true
  | _ => false

/-- Python `isinstance(v, float)`. -/
def is_float : JValue → Bool
  | .float _ => true
  | _ => false

/-- Whether a value supports Python numeric comparison/arithmetic with a
number. -/
def is_num : JValue → Bool
  | .int _ => true
  | .float _ => true
  | .boolean _ => true
  | _ => false

/-- Numeric content of a value; raises `TypeError` (as Python arithmetic
or an order comparison would) on non-numbers. -/
def py_num : JValue → Except String PRat
  | .int n => .ok (PRat.ofInt n)
  | .float q => .ok q
  | .boolean b => .ok (PRat.ofInt (if b then 1 else 0))
  | _ => .error "TypeError: unsupported operand type"

/-- Python `str(v)`.  Exact for `None`, `bool`, `int` and `str` (the only
cases the source can feed it from the payloads the claims speak about);
the `float`/`list`/`dict` renderings are stand-ins. -/
def pyStr : JValue → String
  | .null => "None"
  | .boolean b => if b then "True" else "False"
  | .int n => toString n
  | .float q => toString q.num ++ "/" ++ toString q.den
  | .str s => s
  | .list _ => "[...]"
  | .dict _ => "\x7b...\x7d"

/-- Python `for x in v`: the element sequence of an iterable; raises
`TypeError` on a non-iterable (iterating a `str` yields its characters,
iterating a `dict` yields its keys). -/
def iter_elems : JValue → Except String (List JValue)
  | .list xs => .ok xs
  | .str s => .ok (s.data.map (fun c => .str c.toString))
  | .dict d => .ok (d.map (fun p => .str p.1))
  | _ => .error "TypeError: not iterable"

/-- Python subscript `d[k]` on a dict: `KeyError` when the key is
absent. -/
def pySub (d : List (String × JValue)) (k : String) : Except String JValue :=
  match dget d k with
  | some v => .ok v
  | none => .error ("KeyError: " ++ k)

/-- Python subscript `v[k]` with a string key: `TypeError` unless `v` is
a dict. -/
def pySubJ (v : JValue) (k : String) : Except String JValue :=
  match v with
  | .dict d => pySub d k
  | _ => .error "TypeError: not subscriptable"

/-- Python `v.get(k, [])` where `v` should be a dict (`AttributeError`
otherwise); models line 196's `.get('target_metrics', [])`. -/
def py_get_default (v : JValue) (k : String) : Except String JValue :=
  match v with
  | .dict d => .ok ((dget d k).getD (.list []))
  | _ => .error "AttributeError: get"

/-- Python `wd.get(k, [])` followed by iteration over the result. -/
def get_iter (wd : List (String × JValue)) (k : String) : Except String (List JValue) :=
  match dget wd k with
  | none => .ok []
  | some v => iter_elems v

/-- Requires a dict (first method call on a non-dict document raises
`AttributeError`). -/
def as_dict (v : JValue) : Except String (List (String × JValue)) :=
  match v with
  | .dict d => .ok d
  | _ => .error "AttributeError: get"

/-- Zone names resolvable by `dateutil`, represented by a finite sample.
`tz.gettz` returns a zone object for a resolvable name and `None`
otherwise; the zone object is represented by the name itself. -/
def tz_known : List String :=
  ["UTC", "America/New_York", "America/Los_Angeles", "Europe/Berlin", "Asia/Tokyo"]

/-- Model of `dateutil.tz.gettz`: a zone for a resolvable name, `None`
for an unresolvable one. -/
def gettz (name : String) : Option String :=
  if tz_known.contains name then some name else none

/-- Modelled from the spec: the `PelotonSummary` record of the missing
`sensor.py` module — `A Summary is {value: optional numeric, unit:
string, device-class: optional enum}`; the value attribute is named
`total` (the attribute name the assembler requests, §4.4). -/
structure PelotonSummary where
  total : JValue
  unit : String
  device_cls : Option String

/-- Modelled from the spec: the `PelotonMetric` record of the missing
`sensor.py` module — `A Metric is {max, average, last: optional numeric,
unit: string, device-class: optional enum}`; attribute names `max_val`,
`avg_val`, `last_val` as requested by the assembler (§4.4). -/
structure PelotonMetric where
  max_val : JValue
  avg_val : JValue
  last_val : JValue
  unit : String
  device_cls : Option String

/-- A value stored in the working `metrics`/`summaries` dicts of the
source: a `PelotonSummary`, a `PelotonMetric`, or the plain
`{'upper': ..., 'lower': ...}` dict stored for a matched target window. -/
inductive SData where
  | summary (s : PelotonSummary)
  | metric (m : PelotonMetric)
  | tdict (upper lower : JValue)

/-- The value slot of an output stat: a raw Python value (possibly
`None`) or a zoned timestamp (`datetime.fromtimestamp(ts, zone)`;
`zone = none` models a `None` tzinfo, i.e. a naive local datetime). -/
inductive SVal where
  | j (v : JValue)
  | time (ts : PRat) (zone : Option String)

/-- Modelled from the spec: the `PelotonStat` record of the missing
`sensor.py` module — `{name, value, unit, device-class, state-class,
icon}` (§3). -/
structure PelotonStat where
  name : String
  value : SVal
  unit : Option String
  device_cls : Option String
  state_cls : String
  icon : Option String

/-- The `int_stats` lookup table of the source: slug to (default unit,
device class), for the integer-typed metric slugs. -/
def int_stats : List (String × (String × Option String)) :=
  [("heart_rate", ("", none)),
   ("resistance", ("%", none)),
   ("cadence", ("rpm", none)),
   ("output", ("W", some "power"))]

/-- The `float_stats` set of the source: the float-typed metric slugs. -/
def float_stats : List String := ["speed", "incline"]

/-- `v if isinstance((v := o), int) else None` applied to the result of
a `.get` (absent key gives Python `None`). -/
def int_check (o : Option JValue) : JValue :=
  match o with
  | some v => if is_int v then v else .null
  | none => .null

/-- `v if isinstance((v := o), float) else None` applied to the result
of a `.get`. -/
def float_check (o : Option JValue) : JValue :=
  match o with
  | some v => if is_float v then v else .null
  | none => .null

/-- `(metric.get("values", []) or [None])[-1]`: the last element of the
value series, Python `None` when the series is absent or falsy; raises
on a truthy non-subscriptable value. -/
def last_of_values (d : List (String × JValue)) : Except String JValue :=
  let vsv := (dget d "values").getD (.list [])
  if truthy vsv then
    match vsv with
    | .list xs =>
      match xs.getLast? with
      | some x => .ok x
      | none => .error "IndexError"
    | .str s =>
      match s.data.getLast? with
      | some c => .ok (.str c.toString)
      | none => .error "IndexError"
    | _ => .error "TypeError: not subscriptable"
  else .ok .null

/-- One iteration of the summary-preprocessing loop (source lines
137-156): dispatch on the entry's slug and insert a `PelotonSummary`
for `calories` / `distance` / `elevation`; other slugs contribute
nothing; a non-dict entry raises at `.get`. -/
def summary_step (acc : List (String × SData)) (e : JValue) :
    Except String (List (String × SData)) :=
  match e with
  | .dict d =>
    match dget d "slug" with
    | some (.str "calories") =>
      .ok (dinsert acc "calories"
        (.summary ⟨int_check (dget d "value"), "kcal", none⟩))
    | some (.str "distance") =>
      .ok (dinsert acc "distance"
        (.summary ⟨float_check (dget d "value"),
                   pyStr ((dget d "display_unit").getD .null), none⟩))
    | some (.str "elevation") =>
      .ok (dinsert acc "elevation"
        (.summary ⟨int_check (dget d "value"),
                   pyStr ((dget d "display_unit").getD .null), none⟩))
    | _ => .ok acc
  | _ => .error "AttributeError: get"

/-- One iteration of the metric-flattening loop (source lines 162-167):
append the entry, then — when its `alternatives` value is truthy —
every element of that value. -/
def flatten_step (acc : List JValue) (e : JValue) : Except String (List JValue) :=
  match e with
  | .dict d =>
    match dget d "alternatives" with
    | none => .ok (acc ++ [e])
    | some av =>
      if truthy av then do
        let elems ← iter_elems av
        .ok (acc ++ [e] ++ elems)
      else .ok (acc ++ [e])
  | _ => .error "AttributeError: get"

/-- One iteration of the metric-extraction loop (source lines 177-194):
build a `PelotonMetric` for a recognised slug with the slug's required
numeric type; unrecognised slugs contribute nothing. -/
def metric_step (acc : List (String × SData)) (e : JValue) :
    Except String (List (String × SData)) :=
  match e with
  | .dict d =>
    match dget d "slug" with
    | some (.str s) =>
      match dget int_stats s with
      | some du_dc => do
        let lastv ← last_of_values d
        .ok (dinsert acc s (.metric
          ⟨int_check (dget d "max_value"),
           int_check (dget d "average_value"),
           if is_int lastv then lastv else .null,
           pyStr ((dget d "display_unit").getD (.str du_dc.1)),
           du_dc.2⟩))
      | none =>
        if float_stats.contains s then do
          let lastv ← last_of_values d
          .ok (dinsert acc s (.metric
            ⟨float_check (dget d "max_value"),
             float_check (dget d "average_value"),
             if is_float lastv then lastv else .null,
             pyStr ((dget d "display_unit").getD .null),
             none⟩))
        else .ok acc
    | _ => .ok acc
  | _ => .error "AttributeError: get"

/-- One iteration over a matched window's `target['metrics']` list
(source lines 202-213): a `speed` / `incline` entry stores its
`{'upper': ..., 'lower': ...}` dict under `target_speed` /
`target_incline` (subscript access: missing `upper`/`lower` raises). -/
def target_entry_step (acc : List (String × SData)) (e : JValue) :
    Except String (List (String × SData)) :=
  match e with
  | .dict d =>
    match dget d "name" with
    | some (.str "speed") => do
      let u ← pySub d "upper"
      let lo ← pySub d "lower"
      .ok (dinsert acc "target_speed" (.tdict u lo))
    | some (.str "incline") => do
      let u ← pySub d "upper"
      let lo ← pySub d "lower"
      .ok (dinsert acc "target_incline" (.tdict u lo))
    | _ => .ok acc
  | _ => .error "AttributeError: get"

/-- One iteration of the target-window loop (source lines 200-213):
`target['offsets']['end'] >= actual_elapsed >= target['offsets']['start']`
— inclusive at both ends, short-circuiting (the `start` bound is only
read when the `end` comparison succeeds), then the window's metric
list is processed. -/
def target_step (elapsed : PRat) (acc : List (String × SData)) (t : JValue) :
    Except String (List (String × SData)) := do
  let offs ← pySubJ t "offsets"
  let endv ← pySubJ offs "end"
  let eq ← py_num endv
  if PRat.le elapsed eq then do
    let startv ← pySubJ offs "start"
    let sq ← py_num startv
    if PRat.le sq elapsed then do
      let ms ← pySubJ t "metrics"
      let elems ← iter_elems ms
      elems.foldlM target_entry_step acc
    else .ok acc
  else .ok acc

/-- `round(time.time()) - workout_stats_summary.get("start_time", 0)`
(source line 198): the missing-`start_time` fallback is the integer 0. -/
def compute_elapsed (ws : List (String × JValue)) (now : Int) : Except String PRat := do
  let q ← py_num ((dget ws "start_time").getD (.int 0))
  .ok (PRat.sub (PRat.ofInt now) q)

/-- Timezone resolution (source lines 127-131): `tz.gettz(raw_tz)` when
the `timezone` value is truthy, `tz.gettz("UTC")` otherwise. -/
def resolve_tz (ws : List (String × JValue)) : Except String (Option String) :=
  match dget ws "timezone" with
  | some v =>
    if truthy v then
      match v with
      | .str s => .ok (gettz s)
      | _ => .error "TypeError: gettz"
    else .ok (gettz "UTC")
  | none => .ok (gettz "UTC")

/-- The Start Time / End Time stat value (source lines 234-236 and
244-246): `datetime.fromtimestamp(ws[key], zone)` when the key's value
is present and not `None`, Python `None` otherwise. -/
def time_stat_val (ws : List (String × JValue)) (k : String) (zone : Option String) :
    Except String SVal :=
  match dget ws k with
  | none => .ok (.j .null)
  | some .null => .ok (.j .null)
  | some v => do
    let q ← py_num v
    .ok (.time q zone)

/-- The Duration stat value (source lines 254-259):
`ws.get("ride", {}).get("duration")` divided by 60 when truthy, `None`
when absent or falsy. -/
def duration_val (ws : List (String × JValue)) : Except String SVal :=
  match (dget ws "ride").getD (.dict []) with
  | .dict r =>
    match dget r "duration" with
    | none => .ok (.j .null)
    | some dv =>
      if truthy dv then do
        let q ← py_num dv
        .ok (.j (.float (PRat.divInt q 60)))
      else .ok (.j .null)
  | _ => .error "AttributeError: get"

/-- The Power Output stat value (source lines 283-286):
`round(total_work / 3600, 4)` when `total_work` is present and a float,
`None` otherwise. -/
def power_val (ws : List (String × JValue)) : SVal :=
  match dget ws "total_work" with
  | some (.float q) => .j (.float (round_to_4 (PRat.divInt q 3600)))
  | _ => .j .null

/-- A leaderboard stat value (source lines 267 and 275):
`ws.get(key, 0)` — note the fallback is the integer 0, not `None`. -/
def leaderboard_val (ws : List (String × JValue)) (k : String) : SVal :=
  .j ((dget ws k).getD (.int 0))

/-- `getattr(metrics.get('speed', {}), "unit", None)` (source lines 311
and 319): the speed metric's unit when present, `None` otherwise. -/
def speed_unit (mets : List (String × SData)) : Option String :=
  match dget mets "speed" with
  | some (.metric m) => some m.unit
  | _ => none

/-- `metrics.get(key, {}).get('upper'/'lower', None)` (source lines
294, 302, 310, 318): a bound of a stored target dict, `None` when the
key is unmapped; `.get` on a stored `PelotonMetric` would raise
`AttributeError` (unreachable in the source, kept faithful here). -/
def target_bound (mets : List (String × SData)) (k : String) (upper : Bool) :
    Except String SVal :=
  match dget mets k with
  | none => .ok (.j .null)
  | some (.tdict u lo) => .ok (.j (if upper then u else lo))
  | some _ => .error "AttributeError: get"

/-- `getattr(data, stat, None)` for the attribute names the assembler
requests. -/
def getattr_stat (d : SData) (stat : String) : SVal :=
  match d with
  | .summary s =>
    if stat = "total" then .j s.total
    else if stat = "unit" then .j (.str s.unit)
    else .j .null
  | .metric m =>
    if stat = "max_val" then .j m.max_val
    else if stat = "avg_val" then .j m.avg_val
    else if stat = "last_val" then .j m.last_val
    else if stat = "unit" then .j (.str m.unit)
    else .j .null
  | .tdict _ _ => .j .null

/-- `data.unit` direct attribute access inside `make_stat`: raises
`AttributeError` on a plain dict (a stored target-bounds dict). -/
def attr_unit (d : SData) : Except String String :=
  match d with
  | .summary s => .ok s.unit
  | .metric m => .ok m.unit
  | .tdict _ _ => .error "AttributeError: unit"

/-- `data.device_class` direct attribute access inside `make_stat`. -/
def attr_dc (d : SData) : Except String (Option String) :=
  match d with
  | .summary s => .ok s.device_cls
  | .metric m => .ok m.device_cls
  | .tdict _ _ => .error "AttributeError: device_class"

/-- The `make_stat` helper of the source (lines 218-228): a null-valued
placeholder stat when the backing entity is `None`, otherwise a stat
reading the requested attribute; state class is always
`"measurement"`. -/
def make_stat (data : Option SData) (name stat : String) (icon : Option String) :
    Except String PelotonStat :=
  match data with
  | none => .ok ⟨name, .j .null, none, none, "measurement", icon⟩
  | some d => do
    let u ← attr_unit d
    let dc ← attr_dc d
    .ok ⟨name, getattr_stat d stat, some u, dc, "measurement", icon⟩

/-- The stat-assembly tail of the source (lines 230-342): the 10 common
stats followed by the 14 derived stats, in the source's fixed order. -/
def assemble (ws : List (String × JValue)) (zone : Option String)
    (sums mets : List (String × SData)) : Except String (List PelotonStat) := do
  let stv ← time_stat_val ws "start_time" zone
  let etv ← time_stat_val ws "end_time" zone
  let dv ← duration_val ws
  let tiu ← target_bound mets "target_incline" true
  let til ← target_bound mets "target_incline" false
  let tsu ← target_bound mets "target_speed" true
  let tsl ← target_bound mets "target_speed" false
  let s_dist ← make_stat (dget sums "distance") "Distance" "total" (some "mdi:map-marker-distance")
  let s_cal ← make_stat (dget sums "calories") "Calories" "total" (some "mdi:fire")
  let s_hr_a ← make_stat (dget mets "heart_rate") "Heart Rate: Average" "avg_val" (some "mdi:heart-pulse")
  let s_hr_m ← make_stat (dget mets "heart_rate") "Heart Rate: Max" "max_val" (some "mdi:heart-pulse")
  let s_re_a ← make_stat (dget mets "resistance") "Resistance: Average" "avg_val" (some "mdi:network-strength-2")
  let s_re_m ← make_stat (dget mets "resistance") "Resistance: Max" "max_val" (some "mdi:network-strength-4")
  let s_sp_a ← make_stat (dget mets "speed") "Speed: Average" "avg_val" (some "mdi:speedometer-medium")
  let s_sp_m ← make_stat (dget mets "speed") "Speed: Max" "max_val" (some "mdi:speedometer")
  let s_sp_l ← make_stat (dget mets "speed") "Speed: Most Recent" "last_val" (some "mdi:speedometer")
  let s_in_a ← make_stat (dget mets "incline") "Incline: Average" "avg_val" (some "mdi:slope-uphill")
  let s_in_m ← make_stat (dget mets "incline") "Incline: Max" "max_val" (some "mdi:slope-uphill")
  let s_in_l ← make_stat (dget mets "incline") "Incline: Most Recent" "last_val" (some "mdi:slope-uphill")
  let s_ca_a ← make_stat (dget mets "cadence") "Cadence: Average" "avg_val" (some "mdi:fan")
  let s_ca_m ← make_stat (dget mets "cadence") "Cadence: Max" "max_val" (some "mdi:fan-chevron-up")
  .ok
    [⟨"Start Time", stv, none, some "timestamp", "measurement", some "mdi:timer-sand"⟩,
     ⟨"End Time", etv, none, some "timestamp", "measurement", some "mdi:timer-sand-complete"⟩,
     ⟨"Duration", dv, some "min", none, "measurement", some "mdi:timer-outline"⟩,
     ⟨"Leaderboard: Rank", leaderboard_val ws "leaderboard_rank", none, none, "measurement", some "mdi:trophy-award"⟩,
     ⟨"Leaderboard: Total Users", leaderboard_val ws "total_leaderboard_users", none, none, "measurement", some "mdi:account-group"⟩,
     ⟨"Power Output", power_val ws, some "Wh", some "energy", "measurement", none⟩,
     ⟨"Target Incline Upper", tiu, some "%", none, "measurement", some "mdi:slope-uphill"⟩,
     ⟨"Target Incline Lower", til, some "%", none, "measurement", some "mdi:slope-downhill"⟩,
     ⟨"Target Speed Upper", tsu, speed_unit mets, none, "measurement", some "mdi:speedometer"⟩,
     ⟨"Target Speed Lower", tsl, speed_unit mets, none, "measurement", some "mdi:speedometer-slow"⟩,
     s_dist, s_cal, s_hr_a, s_hr_m, s_re_a, s_re_m,
     s_sp_a, s_sp_m, s_sp_l, s_in_a, s_in_m, s_in_l, s_ca_a, s_ca_m]

/-- The embedded `compile_quant_data` (source lines 121-342).  `now` is
the `round(time.time())` wall-clock read of line 198, made explicit. -/
def compile_quant_data (workout_stats_summary workout_stats_detail : JValue)
    (now : Int) : Except String (List PelotonStat) := do
  let ws ← as_dict workout_stats_summary
  let zone ← resolve_tz ws
  let wd ← as_dict workout_stats_detail
  let raw_sums ← get_iter wd "summaries"
  let sums ← raw_sums.foldlM summary_step []
  let raw_mets ← get_iter wd "metrics"
  let flat ← raw_mets.foldlM flatten_step []
  let mets0 ← flat.foldlM metric_step []
  let tm_container := (dget wd "target_metrics_performance_data").getD (.dict [])
  let targets_raw ← py_get_default tm_container "target_metrics"
  let target_list ← iter_elems targets_raw
  let elapsed ← compute_elapsed ws now
  let mets ← target_list.foldlM (target_step elapsed) mets0
  assemble ws zone sums mets

/-! ### Generic lemmas about the embedding's building blocks -/

theorem except_bind_ok {ε α β : Type} {e : Except ε α} {f : α → Except ε β} {b : β} :
    e >>= f = Except.ok b ↔ ∃ a, e = Except.ok a ∧ f a = Except.ok b := by
  cases e <;> simp [Bind.bind, Except.bind]

theorem dget_dinsert_self {α : Type} (d : List (String × α)) (k : String) (v : α) :
    dget (dinsert d k v) k = some v := by
  induction d with
  | nil => simp [dget, dinsert]
  | cons p rest ih =>
    obtain ⟨k2, v2⟩ := p
    by_cases h : k2 = k
    · simp [dinsert, h, dget]
    · simp [dinsert, h, dget, ih]

theorem dget_dinsert_ne {α : Type} (d : List (String × α)) (k k2 : String) (v : α)
    (h : k2 ≠ k) : dget (dinsert d k v) k2 = dget d k2 := by
  induction d with
  | nil => simp [dget, dinsert, Ne.symm h]
  | cons p rest ih =>
    obtain ⟨k3, v3⟩ := p
    by_cases h3 : k3 = k
    · simp [dinsert, dget, h3, Ne.symm h]
    · by_cases h2 : k3 = k2 <;> simp [dinsert, dget, h3, h2, h, ih]

theorem make_stat_ok {data : Option SData} {n st : String} {ic : Option String}
    {s : PelotonStat} (h : make_stat data n st ic = .ok s) :
    s.name = n ∧ s.state_cls = "measurement" := by
  cases data with
  | none =>
    simp only [make_stat, Except.ok.injEq] at h
    subst h; exact ⟨rfl, rfl⟩
  | some d =>
    simp only [make_stat, except_bind_ok, Except.ok.injEq] at h
    obtain ⟨u, hu, dc, hdc, hs⟩ := h
    subst hs; exact ⟨rfl, rfl⟩

/-- The fixed name sequence of the 24 output stats, in source order. -/
def stat_names : List String :=
  ["Start Time", "End Time", "Duration", "Leaderboard: Rank",
   "Leaderboard: Total Users", "Power Output", "Target Incline Upper",
   "Target Incline Lower", "Target Speed Upper", "Target Speed Lower",
   "Distance", "Calories", "Heart Rate: Average", "Heart Rate: Max",
   "Resistance: Average", "Resistance: Max", "Speed: Average", "Speed: Max",
   "Speed: Most Recent", "Incline: Average", "Incline: Max",
   "Incline: Most Recent", "Cadence: Average", "Cadence: Max"]

theorem assemble_names {ws : List (String × JValue)} {zone : Option String}
    {sums mets : List (String × SData)} {l : List PelotonStat}
    (h : assemble ws zone sums mets = .ok l) :
    l.map PelotonStat.name = stat_names ∧ ∀ s ∈ l, s.state_cls = "measurement" := by
  simp only [assemble, except_bind_ok, Except.ok.injEq] at h
  obtain ⟨stv, h1, etv, h2, dv, h3, tiu, h4, til, h5, tsu, h6, tsl, h7,
    s1, g1, s2, g2, s3, g3, s4, g4, s5, g5, s6, g6, s7, g7,
    s8, g8, s9, g9, s10, g10, s11, g11, s12, g12, s13, g13, s14, g14, hl⟩ := h
  subst hl
  constructor
  · simp [stat_names, List.map, (make_stat_ok g1).1, (make_stat_ok g2).1,
      (make_stat_ok g3).1, (make_stat_ok g4).1, (make_stat_ok g5).1,
      (make_stat_ok g6).1, (make_stat_ok g7).1, (make_stat_ok g8).1,
      (make_stat_ok g9).1, (make_stat_ok g10).1, (make_stat_ok g11).1,
      (make_stat_ok g12).1, (make_stat_ok g13).1, (make_stat_ok g14).1]
  · intro s hs
    simp only [List.mem_cons, List.not_mem_nil, or_false] at hs
    rcases hs with rfl|rfl|rfl|rfl|rfl|rfl|rfl|rfl|rfl|rfl|rfl|rfl|rfl|rfl|rfl|rfl|rfl|rfl|rfl|rfl|rfl|rfl|rfl|rfl
    · rfl
    · rfl
    · rfl
    · rfl
    · rfl
    · rfl
    · rfl
    · rfl
    · rfl
    · rfl
    · exact (make_stat_ok g1).2
    · exact (make_stat_ok g2).2
    · exact (make_stat_ok g3).2
    · exact (make_stat_ok g4).2
    · exact (make_stat_ok g5).2
    · exact (make_stat_ok g6).2
    · exact (make_stat_ok g7).2
    · exact (make_stat_ok g8).2
    · exact (make_stat_ok g9).2
    · exact (make_stat_ok g10).2
    · exact (make_stat_ok g11).2
    · exact (make_stat_ok g12).2
    · exact (make_stat_ok g13).2
    · exact (make_stat_ok g14).2

/-- C1: for every pair of well-formed input documents on which the
compilation succeeds, `compile_quant_data` returns a list of exactly 24
stats whose names appear in the fixed source order — the 10 common stats
followed by the 14 derived stats (cadence with no last variant) — and
every entry's state class is `"measurement"`; absence of input fields
never shortens or reorders the list. -/
theorem compile_quant_data_fixed_order (wsj wdj : JValue) (now : Int)
    (l : List PelotonStat) (h : compile_quant_data wsj wdj now = .ok l) :
    l.length = 24 ∧ l.map PelotonStat.name = stat_names ∧
      ∀ s ∈ l, s.state_cls = "measurement" := by
  simp only [compile_quant_data, except_bind_ok] at h
  obtain ⟨ws, hws, zone, hz, wd, hwd, rs, hrs, sums, hsums, rm, hrm,
    flat, hflat, mets0, hmets0, traw, htraw, tl, htl, el, hel, mets, hmets, hasm⟩ := h
  have hn := assemble_names hasm
  refine ⟨?_, hn.1, hn.2⟩
  have := congrArg List.length hn.1
  simpa using this

/-- The output of `compile_quant_data` on two empty documents. -/
def out0 : List PelotonStat :=
  [⟨"Start Time", .j .null, none, some "timestamp", "measurement", some "mdi:timer-sand"⟩,
   ⟨"End Time", .j .null, none, some "timestamp", "measurement", some "mdi:timer-sand-complete"⟩,
   ⟨"Duration", .j .null, some "min", none, "measurement", some "mdi:timer-outline"⟩,
   ⟨"Leaderboard: Rank", .j (.int 0), none, none, "measurement", some "mdi:trophy-award"⟩,
   ⟨"Leaderboard: Total Users", .j (.int 0), none, none, "measurement", some "mdi:account-group"⟩,
   ⟨"Power Output", .j .null, some "Wh", some "energy", "measurement", none⟩,
   ⟨"Target Incline Upper", .j .null, some "%", none, "measurement", some "mdi:slope-uphill"⟩,
   ⟨"Target Incline Lower", .j .null, some "%", none, "measurement", some "mdi:slope-downhill"⟩,
   ⟨"Target Speed Upper", .j .null, none, none, "measurement", some "mdi:speedometer"⟩,
   ⟨"Target Speed Lower", .j .null, none, none, "measurement", some "mdi:speedometer-slow"⟩,
   ⟨"Distance", .j .null, none, none, "measurement", some "mdi:map-marker-distance"⟩,
   ⟨"Calories", .j .null, none, none, "measurement", some "mdi:fire"⟩,
   ⟨"Heart Rate: Average", .j .null, none, none, "measurement", some "mdi:heart-pulse"⟩,
   ⟨"Heart Rate: Max", .j .null, none, none, "measurement", some "mdi:heart-pulse"⟩,
   ⟨"Resistance: Average", .j .null, none, none, "measurement", some "mdi:network-strength-2"⟩,
   ⟨"Resistance: Max", .j .null, none, none, "measurement", some "mdi:network-strength-4"⟩,
   ⟨"Speed: Average", .j .null, none, none, "measurement", some "mdi:speedometer-medium"⟩,
   ⟨"Speed: Max", .j .null, none, none, "measurement", some "mdi:speedometer"⟩,
   ⟨"Speed: Most Recent", .j .null, none, none, "measurement", some "mdi:speedometer"⟩,
   ⟨"Incline: Average", .j .null, none, none, "measurement", some "mdi:slope-uphill"⟩,
   ⟨"Incline: Max", .j .null, none, none, "measurement", some "mdi:slope-uphill"⟩,
   ⟨"Incline: Most Recent", .j .null, none, none, "measurement", some "mdi:slope-uphill"⟩,
   ⟨"Cadence: Average", .j .null, none, none, "measurement", some "mdi:fan"⟩,
   ⟨"Cadence: Max", .j .null, none, none, "measurement", some "mdi:fan-chevron-up"⟩]

theorem compile_empty_eq_out0 :
    compile_quant_data (.dict []) (.dict []) 0 = .ok out0 := rfl

/-- Witness for C1: the theorem applied to the concrete empty documents. -/
theorem compile_quant_data_fixed_order_witness :
    out0.length = 24 ∧ out0.map PelotonStat.name = stat_names ∧
      ∀ s ∈ out0, s.state_cls = "measurement" :=
  compile_quant_data_fixed_order (.dict []) (.dict []) 0 out0 compile_empty_eq_out0

/-- C9: determinism / purity — the embedded `compile_quant_data` is a
pure function of the summary document, the detail document and the
`now` timestamp (the wall-clock read of source line 198, made an
explicit parameter): identical inputs give identical outputs, with no
hidden state influencing the result. -/
theorem compile_quant_data_pure (wsa wsb wda wdb : JValue) (na nb : Int)
    (hw : wsa = wsb) (hd : wda = wdb) (hn : na = nb) :
    compile_quant_data wsa wda na = compile_quant_data wsb wdb nb := by
  subst hw; subst hd; subst hn; rfl

/-- Witness for C9 at a concrete input. -/
theorem compile_quant_data_pure_witness :
    compile_quant_data (.dict []) (.dict []) 7 = compile_quant_data (.dict []) (.dict []) 7 :=
  compile_quant_data_pure (.dict []) (.dict []) (.dict []) (.dict []) 7 7 rfl rfl rfl

/-- Counterexample to C5 as stated: on documents lacking every field,
the Leaderboard: Rank stat's value is the integer 0 — the `.get(..., 0)`
fallback of source line 267 — not `None`. -/
theorem leaderboard_null_counterexample :
    compile_quant_data (.dict []) (.dict []) 0 = .ok out0 ∧
      out0.get? 3 = some ⟨"Leaderboard: Rank", .j (.int 0), none, none,
        "measurement", some "mdi:trophy-award"⟩ ∧
      SVal.j (.int 0) ≠ SVal.j .null := by
  refine ⟨compile_empty_eq_out0, rfl, ?_⟩
  simp

/-- C5 (amended): for every stat whose backing field or entity is absent
from the inputs, the stat is still emitted (never a shortened list) with
value `None` — except the Leaderboard: Rank and Leaderboard: Total Users
stats, whose `.get(..., 0)` fallback makes their value the integer 0
when the `leaderboard_rank` / `total_leaderboard_users` fields are
absent. -/
theorem absent_sources_emit_placeholder (ws wd : List (String × JValue)) (now : Int)
    (h1 : dget ws "timezone" = none) (h2 : dget ws "start_time" = none)
    (h3 : dget ws "end_time" = none) (h4 : dget ws "ride" = none)
    (h5 : dget ws "total_work" = none) (h6 : dget ws "leaderboard_rank" = none)
    (h7 : dget ws "total_leaderboard_users" = none)
    (h8 : dget wd "summaries" = none) (h9 : dget wd "metrics" = none)
    (h10 : dget wd "target_metrics_performance_data" = none) :
    compile_quant_data (.dict ws) (.dict wd) now = .ok out0 := by
  simp [compile_quant_data, as_dict, resolve_tz, h1, get_iter, h8, h9, h10,
    py_get_default, iter_elems, compute_elapsed, h2, py_num, assemble,
    time_stat_val, h3, duration_val, h4, power_val, h5, leaderboard_val, h6, h7,
    target_bound, speed_unit, make_stat, out0, dget,
    Bind.bind, Except.bind, pure, Except.pure, List.foldlM]

/-- Witness for C5 (amended): the theorem applied to empty documents. -/
theorem absent_sources_emit_placeholder_witness :
    compile_quant_data (.dict []) (.dict []) 3 = .ok out0 :=
  absent_sources_emit_placeholder [] [] 3 rfl rfl rfl rfl rfl rfl rfl rfl rfl rfl

/-- A summary document whose `timezone` field names an unresolvable
zone. -/
def ws_badtz : JValue := .dict [("timezone", .str "Not/A_Zone"), ("start_time", .int 0)]

/-- Counterexample to C8 as stated: with `timezone = "Not/A_Zone"`
(present but unresolvable), `tz.gettz` returns `None`, so the Start
Time stat is rendered with a `None` tzinfo (a naive local datetime) —
not with the UTC zone the claim asserts. -/
theorem timezone_unresolvable_counterexample :
    compile_quant_data ws_badtz (.dict []) 0 =
      .ok (⟨"Start Time", .time (PRat.ofInt 0) none, none, some "timestamp",
        "measurement", some "mdi:timer-sand"⟩ :: out0.tail) ∧
      gettz "Not/A_Zone" = none ∧
      SVal.time (PRat.ofInt 0) none ≠ SVal.time (PRat.ofInt 0) (some "UTC") := by
  refine ⟨rfl, rfl, ?_⟩
  simp

/-- C8 (amended): the zone used to render the Start Time and End Time
stats is `tz.gettz(timezone)` when the `timezone` field is present and
truthy — which is `None` (a naive datetime), not UTC, when the name is
unresolvable — and `tz.gettz("UTC")` when the field is absent or falsy;
a time stat renders its epoch field in that zone when the field is
present, and is `None` otherwise. -/
theorem timezone_resolution :
    (∀ ws, dget ws "timezone" = none → resolve_tz ws = .ok (gettz "UTC")) ∧
    (∀ ws v, dget ws "timezone" = some v → truthy v = false →
      resolve_tz ws = .ok (gettz "UTC")) ∧
    (∀ ws s, dget ws "timezone" = some (.str s) → truthy (.str s) = true →
      resolve_tz ws = .ok (gettz s)) ∧
    (∀ ws k z n, dget ws k = some (.int n) →
      time_stat_val ws k z = .ok (.time (PRat.ofInt n) z)) ∧
    (∀ ws k z, dget ws k = none → time_stat_val ws k z = .ok (.j .null)) := by
  refine ⟨?_, ?_, ?_, ?_, ?_⟩
  · intro ws h; simp [resolve_tz, h]
  · intro ws v h ht; simp [resolve_tz, h, ht]
  · intro ws s h ht; simp [resolve_tz, h, ht]
  · intro ws k z n h; simp [time_stat_val, h, py_num, Bind.bind, Except.bind]
  · intro ws k z h; simp [time_stat_val, h]

/-- Witness for C8 (amended) at concrete inputs. -/
theorem timezone_resolution_witness :
    resolve_tz [("timezone", .str "America/New_York")] = .ok (gettz "America/New_York") ∧
    resolve_tz [("timezone", .str "")] = .ok (gettz "UTC") ∧
    resolve_tz [] = .ok (gettz "UTC") ∧
    time_stat_val [("start_time", .int 99)] "start_time" none = .ok (.time (PRat.ofInt 99) none) :=
  ⟨timezone_resolution.2.2.1 _ "America/New_York" rfl rfl,
   timezone_resolution.2.1 _ (.str "") rfl rfl,
   timezone_resolution.1 _ rfl,
   timezone_resolution.2.2.2.1 _ "start_time" none 99 rfl⟩

/-- C2: in the summary preprocessor, a `calories` entry's value is kept
only when it is an integer (a float yields `None`) and its unit is the
constant `"kcal"`; a `distance` entry's value is kept only when it is a
float (an integer yields `None`) with unit from the entry's
`display_unit` field; an `elevation` entry's value is kept only when it
is an integer; any other slug contributes no key; and no entry (of any
value type) raises an exception. -/
theorem summary_type_strictness :
    (∀ acc d n, dget d "slug" = some (.str "calories") → dget d "value" = some (.int n) →
      summary_step acc (.dict d) =
        .ok (dinsert acc "calories" (.summary ⟨.int n, "kcal", none⟩))) ∧
    (∀ acc d q, dget d "slug" = some (.str "calories") → dget d "value" = some (.float q) →
      summary_step acc (.dict d) =
        .ok (dinsert acc "calories" (.summary ⟨.null, "kcal", none⟩))) ∧
    (∀ acc d q u, dget d "slug" = some (.str "distance") → dget d "value" = some (.float q) →
      dget d "display_unit" = some (.str u) →
      summary_step acc (.dict d) =
        .ok (dinsert acc "distance" (.summary ⟨.float q, u, none⟩))) ∧
    (∀ acc d n u, dget d "slug" = some (.str "distance") → dget d "value" = some (.int n) →
      dget d "display_unit" = some (.str u) →
      summary_step acc (.dict d) =
        .ok (dinsert acc "distance" (.summary ⟨.null, u, none⟩))) ∧
    (∀ acc d n u, dget d "slug" = some (.str "elevation") → dget d "value" = some (.int n) →
      dget d "display_unit" = some (.str u) →
      summary_step acc (.dict d) =
        .ok (dinsert acc "elevation" (.summary ⟨.int n, u, none⟩))) ∧
    (∀ acc d q u, dget d "slug" = some (.str "elevation") → dget d "value" = some (.float q) →
      dget d "display_unit" = some (.str u) →
      summary_step acc (.dict d) =
        .ok (dinsert acc "elevation" (.summary ⟨.null, u, none⟩))) ∧
    (∀ acc d s, dget d "slug" = some (.str s) →
      s ≠ "calories" → s ≠ "distance" → s ≠ "elevation" →
      summary_step acc (.dict d) = .ok acc) ∧
    (∀ acc d, ∃ m, summary_step acc (.dict d) = .ok m) := by
  refine ⟨?_, ?_, ?_, ?_, ?_, ?_, ?_, ?_⟩
  · intro acc d n h1 h2
    simp [summary_step, h1, h2, int_check, is_int]
  · intro acc d q h1 h2
    simp [summary_step, h1, h2, int_check, is_int]
  · intro acc d q u h1 h2 h3
    simp [summary_step, h1, h2, h3, float_check, is_float, pyStr]
  · intro acc d n u h1 h2 h3
    simp [summary_step, h1, h2, h3, float_check, is_float, pyStr]
  · intro acc d n u h1 h2 h3
    simp [summary_step, h1, h2, h3, int_check, is_int, pyStr]
  · intro acc d q u h1 h2 h3
    simp [summary_step, h1, h2, h3, int_check, is_int, pyStr]
  · intro acc d s h1 hs1 hs2 hs3
    simp only [summary_step, h1]
    split <;> simp_all
  · intro acc d
    simp only [summary_step]
    split
    all_goals exact ⟨_, rfl⟩

/-- Witness for C2 at concrete entries: a float-typed calories value
degrades to `None`, an int-typed distance value degrades to `None`, an
unrecognised slug contributes nothing. -/
theorem summary_type_strictness_witness :
    summary_step [] (.dict [("slug", .str "calories"), ("value", .float ⟨250, 1⟩)]) =
      .ok (dinsert [] "calories" (.summary ⟨.null, "kcal", none⟩)) ∧
    summary_step [] (.dict [("slug", .str "distance"), ("value", .int 5),
      ("display_unit", .str "mi")]) =
      .ok (dinsert [] "distance" (.summary ⟨.null, "mi", none⟩)) ∧
    summary_step [] (.dict [("slug", .str "pace"), ("value", .str "x")]) = .ok [] :=
  ⟨summary_type_strictness.2.1 [] _ ⟨250, 1⟩ rfl rfl,
   summary_type_strictness.2.2.2.1 [] _ 5 "mi" rfl rfl rfl,
   summary_type_strictness.2.2.2.2.2.2.1 [] _ "pace" rfl
     (by decide) (by decide) (by decide)⟩

/-- C10: unit-coercion edge case — for a `distance`/`elevation` summary
entry or a float-typed metric entry whose `display_unit` is absent or
null, the emitted unit is the literal string `"None"` (the `str(...)`
coercion of Python `None`); for an int-typed metric slug the table's
default unit is used only when `display_unit` is absent entirely, while
a present-but-null `display_unit` again yields `"None"`. -/
theorem unit_string_coercion :
    (∀ acc d q, dget d "slug" = some (.str "distance") → dget d "value" = some (.float q) →
      dget d "display_unit" = none →
      summary_step acc (.dict d) =
        .ok (dinsert acc "distance" (.summary ⟨.float q, "None", none⟩))) ∧
    (∀ acc d q, dget d "slug" = some (.str "distance") → dget d "value" = some (.float q) →
      dget d "display_unit" = some .null →
      summary_step acc (.dict d) =
        .ok (dinsert acc "distance" (.summary ⟨.float q, "None", none⟩))) ∧
    (∀ acc d n, dget d "slug" = some (.str "elevation") → dget d "value" = some (.int n) →
      dget d "display_unit" = none →
      summary_step acc (.dict d) =
        .ok (dinsert acc "elevation" (.summary ⟨.int n, "None", none⟩))) ∧
    (∀ acc d, dget d "slug" = some (.str "speed") → dget d "max_value" = none →
      dget d "average_value" = none → dget d "values" = none → dget d "display_unit" = none →
      metric_step acc (.dict d) =
        .ok (dinsert acc "speed" (.metric ⟨.null, .null, .null, "None", none⟩))) ∧
    (∀ acc d, dget d "slug" = some (.str "speed") → dget d "max_value" = none →
      dget d "average_value" = none → dget d "values" = none →
      dget d "display_unit" = some .null →
      metric_step acc (.dict d) =
        .ok (dinsert acc "speed" (.metric ⟨.null, .null, .null, "None", none⟩))) ∧
    (∀ acc d, dget d "slug" = some (.str "cadence") → dget d "max_value" = none →
      dget d "average_value" = none → dget d "values" = none → dget d "display_unit" = none →
      metric_step acc (.dict d) =
        .ok (dinsert acc "cadence" (.metric ⟨.null, .null, .null, "rpm", none⟩))) ∧
    (∀ acc d, dget d "slug" = some (.str "cadence") → dget d "max_value" = none →
      dget d "average_value" = none → dget d "values" = none →
      dget d "display_unit" = some .null →
      metric_step acc (.dict d) =
        .ok (dinsert acc "cadence" (.metric ⟨.null, .null, .null, "None", none⟩))) := by
  refine ⟨?_, ?_, ?_, ?_, ?_, ?_, ?_⟩
  · intro acc d q h1 h2 h3
    simp [summary_step, h1, h2, h3, float_check, is_float, pyStr]
  · intro acc d q h1 h2 h3
    simp [summary_step, h1, h2, h3, float_check, is_float, pyStr]
  · intro acc d n h1 h2 h3
    simp [summary_step, h1, h2, h3, int_check, is_int, pyStr]
  · intro acc d h1 h2 h3 h4 h5
    simp [metric_step, h1, h2, h3, h4, h5, int_stats, dget, float_stats,
      last_of_values, truthy, float_check, is_float, pyStr,
      Bind.bind, Except.bind]
  · intro acc d h1 h2 h3 h4 h5
    simp [metric_step, h1, h2, h3, h4, h5, int_stats, dget, float_stats,
      last_of_values, truthy, float_check, is_float, pyStr,
      Bind.bind, Except.bind]
  · intro acc d h1 h2 h3 h4 h5
    simp [metric_step, h1, h2, h3, h4, h5, int_stats, dget,
      last_of_values, truthy, int_check, is_int, pyStr,
      Bind.bind, Except.bind]
  · intro acc d h1 h2 h3 h4 h5
    simp [metric_step, h1, h2, h3, h4, h5, int_stats, dget,
      last_of_values, truthy, int_check, is_int, pyStr,
      Bind.bind, Except.bind]

/-- Witness for C10 at concrete entries. -/
theorem unit_string_coercion_witness :
    summary_step [] (.dict [("slug", .str "distance"), ("value", .float ⟨5, 1⟩),
      ("display_unit", .null)]) =
      .ok (dinsert [] "distance" (.summary ⟨.float ⟨5, 1⟩, "None", none⟩)) ∧
    metric_step [] (.dict [("slug", .str "cadence")]) =
      .ok (dinsert [] "cadence" (.metric ⟨.null, .null, .null, "rpm", none⟩)) ∧
    metric_step [] (.dict [("slug", .str "cadence"), ("display_unit", .null)]) =
      .ok (dinsert [] "cadence" (.metric ⟨.null, .null, .null, "None", none⟩)) :=
  ⟨unit_string_coercion.2.1 [] _ ⟨5, 1⟩ rfl rfl rfl,
   unit_string_coercion.2.2.2.2.2.1 [] _ rfl rfl rfl rfl rfl,
   unit_string_coercion.2.2.2.2.2.2 [] _ rfl rfl rfl rfl rfl⟩

/-- The final element of a value series, Python `None` when the series
is empty (the `(... or [None])[-1]` idiom evaluated on a list). -/
def py_last (vs : List JValue) : JValue := (vs.getLast?).getD .null

theorem last_of_values_list (d : List (String × JValue)) (vs : List JValue)
    (h : dget d "values" = some (.list vs)) :
    last_of_values d = .ok (py_last vs) := by
  cases vs with
  | nil => simp [last_of_values, h, truthy, py_last]
  | cons x t =>
    have h2 : ∃ y, (x :: t).getLast? = some y := by
      cases hh : (x :: t).getLast? with
      | none => simp [List.getLast?_eq_none_iff] at hh
      | some y => exact ⟨y, rfl⟩
    obtain ⟨y, hy⟩ := h2
    simp [last_of_values, h, truthy, py_last, hy]

/-- C3: the metric preprocessor flattens by appending each top-level
entry followed by its alternatives in order; extraction builds the
per-slug `PelotonMetric` with `max_value`/`average_value` type-checked
against the slug's required type (int for the `int_stats` slugs, float
for the `float_stats` slugs) and `last` the type-checked final element
of the value series (`None` when the series is empty or the final
element fails the check); a later flattened occurrence of a slug
overwrites the earlier one's entry in the map. -/
theorem metric_flatten_extract :
    (∀ acc d xs, dget d "alternatives" = some (.list xs) →
      flatten_step acc (.dict d) = .ok (acc ++ [.dict d] ++ xs)) ∧
    (∀ acc d, dget d "alternatives" = none →
      flatten_step acc (.dict d) = .ok (acc ++ [.dict d])) ∧
    (∀ acc d s du dc vs, dget d "slug" = some (.str s) →
      dget int_stats s = some (du, dc) → dget d "values" = some (.list vs) →
      metric_step acc (.dict d) = .ok (dinsert acc s (.metric
        ⟨int_check (dget d "max_value"), int_check (dget d "average_value"),
         if is_int (py_last vs) then py_last vs else .null,
         pyStr ((dget d "display_unit").getD (.str du)), dc⟩))) ∧
    (∀ acc d s vs, dget d "slug" = some (.str s) → dget int_stats s = none →
      float_stats.contains s = true → dget d "values" = some (.list vs) →
      metric_step acc (.dict d) = .ok (dinsert acc s (.metric
        ⟨float_check (dget d "max_value"), float_check (dget d "average_value"),
         if is_float (py_last vs) then py_last vs else .null,
         pyStr ((dget d "display_unit").getD .null), none⟩))) ∧
    (py_last [] = .null) ∧
    (∀ (m : List (String × SData)) k v, dget (dinsert m k v) k = some v) := by
  refine ⟨?_, ?_, ?_, ?_, rfl, fun m k v => dget_dinsert_self m k v⟩
  · intro acc d xs h
    cases xs with
    | nil => simp [flatten_step, h, truthy, iter_elems, Bind.bind, Except.bind]
    | cons x t => simp [flatten_step, h, truthy, iter_elems, Bind.bind, Except.bind]
  · intro acc d h
    simp [flatten_step, h]
  · intro acc d s du dc vs h1 h2 h3
    have hl := last_of_values_list d vs h3
    simp [metric_step, h1, h2, hl, Bind.bind, Except.bind]
  · intro acc d s vs h1 h2 h3 h4
    have hl := last_of_values_list d vs h4
    have h3m : s ∈ float_stats := by simpa using h3
    simp [metric_step, h1, h2, h3m, hl, Bind.bind, Except.bind]

/-- A concrete heart-rate metric entry used by the C3 witness. -/
def mdict1 : List (String × JValue) :=
  [("slug", .str "heart_rate"), ("max_value", .int 150),
   ("average_value", .float ⟨120, 1⟩), ("values", .list [.int 90, .int 95])]

/-- Witness for C3 at concrete entries. -/
theorem metric_flatten_extract_witness :
    flatten_step [] (.dict [("alternatives", .list [.dict [("slug", .str "speed")]])]) =
      .ok ([] ++ [.dict [("alternatives", .list [.dict [("slug", .str "speed")]])]] ++
        [.dict [("slug", .str "speed")]]) ∧
    metric_step [] (.dict mdict1) = .ok (dinsert [] "heart_rate" (.metric
      ⟨int_check (dget mdict1 "max_value"), int_check (dget mdict1 "average_value"),
       if is_int (py_last [.int 90, .int 95]) then py_last [.int 90, .int 95] else .null,
       pyStr ((dget mdict1 "display_unit").getD (.str "")), none⟩)) ∧
    dget (dinsert ([] : List (String × SData)) "speed"
        (.metric ⟨.null, .null, .null, "x", none⟩)) "speed" =
      some (.metric ⟨.null, .null, .null, "x", none⟩) :=
  ⟨metric_flatten_extract.1 [] _ [.dict [("slug", .str "speed")]] rfl,
   metric_flatten_extract.2.2.1 [] mdict1 "heart_rate" "" none [.int 90, .int 95] rfl rfl rfl,
   metric_flatten_extract.2.2.2.2.2 [] "speed" _⟩

/-- C6: the Duration stat's value is the summary's nested
`ride.duration` divided by 60 (`None` when absent or falsy, e.g. zero);
the Power Output stat's value is `total_work / 3600` rounded to 4
decimal places, and `None` unless `total_work` is present and a float
(an integer `total_work` yields `None`). -/
theorem duration_power_conversion :
    (∀ ws r n, dget ws "ride" = some (.dict r) → dget r "duration" = some (.int n) →
      n ≠ 0 → duration_val ws = .ok (.j (.float (PRat.divInt (PRat.ofInt n) 60)))) ∧
    (∀ ws r, dget ws "ride" = some (.dict r) → dget r "duration" = none →
      duration_val ws = .ok (.j .null)) ∧
    (∀ ws r, dget ws "ride" = some (.dict r) → dget r "duration" = some (.int 0) →
      duration_val ws = .ok (.j .null)) ∧
    (∀ ws, dget ws "ride" = none → duration_val ws = .ok (.j .null)) ∧
    (∀ ws q, dget ws "total_work" = some (.float q) →
      power_val ws = .j (.float (round_to_4 (PRat.divInt q 3600)))) ∧
    (∀ ws n, dget ws "total_work" = some (.int n) → power_val ws = .j .null) ∧
    (∀ ws, dget ws "total_work" = none → power_val ws = .j .null) := by
  refine ⟨?_, ?_, ?_, ?_, ?_, ?_, ?_⟩
  · intro ws r n h1 h2 hn
    simp [duration_val, h1, h2, truthy, hn, py_num, Bind.bind, Except.bind]
  · intro ws r h1 h2
    simp [duration_val, h1, h2]
  · intro ws r h1 h2
    simp [duration_val, h1, h2, truthy]
  · intro ws h1
    simp [duration_val, h1, dget]
  · intro ws q h1
    simp [power_val, h1]
  · intro ws n h1
    simp [power_val, h1]
  · intro ws h1
    simp [power_val, h1]

/-- Witness for C6 at concrete inputs: a 1200-second ride is 20
minutes; an integer `total_work` yields `None`; a float `total_work` is
converted and rounded. -/
theorem duration_power_conversion_witness :
    duration_val [("ride", .dict [("duration", .int 1200)])] =
      .ok (.j (.float (PRat.divInt (PRat.ofInt 1200) 60))) ∧
    duration_val [("ride", .dict [("duration", .int 0)])] = .ok (.j .null) ∧
    power_val [("total_work", .int 180000)] = .j .null ∧
    power_val [("total_work", .float ⟨180001, 1⟩)] =
      .j (.float (round_to_4 (PRat.divInt ⟨180001, 1⟩ 3600))) :=
  ⟨duration_power_conversion.1 _ _ 1200 rfl rfl (by decide),
   duration_power_conversion.2.2.1 _ _ rfl rfl,
   duration_power_conversion.2.2.2.2.2.1 _ 180000 rfl,
   duration_power_conversion.2.2.2.2.1 _ ⟨180001, 1⟩ rfl⟩

/-- C4: a target window contributes its bounds exactly when
`start <= elapsed_seconds <= end`, inclusive at both endpoints (the
embedded comparison agrees with integer `<=`, so elapsed equal to
`start` or `end` is inside and one unit past `end` is outside); a
later matching window's entry overwrites the earlier one's; when no
window matches the map is unchanged and every target-bound stat value
is `None`; `elapsed_seconds` is `now` minus `start_time` with a missing
`start_time` treated as 0. -/
theorem target_window_selection :
    (∀ el acc td od ms es ee, dget td "offsets" = some (.dict od) →
      dget od "end" = some (.int ee) → dget od "start" = some (.int es) →
      dget td "metrics" = some (.list ms) →
      PRat.le el (PRat.ofInt ee) → PRat.le (PRat.ofInt es) el →
      target_step el acc (.dict td) = ms.foldlM target_entry_step acc) ∧
    (∀ el acc td od ee, dget td "offsets" = some (.dict od) →
      dget od "end" = some (.int ee) → ¬ PRat.le el (PRat.ofInt ee) →
      target_step el acc (.dict td) = .ok acc) ∧
    (∀ el acc td od es ee, dget td "offsets" = some (.dict od) →
      dget od "end" = some (.int ee) → dget od "start" = some (.int es) →
      PRat.le el (PRat.ofInt ee) → ¬ PRat.le (PRat.ofInt es) el →
      target_step el acc (.dict td) = .ok acc) ∧
    (∀ a b : Int, PRat.le (PRat.ofInt a) (PRat.ofInt b) ↔ a ≤ b) ∧
    (∀ acc d u lo, dget d "name" = some (.str "incline") → dget d "upper" = some u →
      dget d "lower" = some lo →
      target_entry_step acc (.dict d) = .ok (dinsert acc "target_incline" (.tdict u lo)) ∧
        dget (dinsert acc "target_incline" (.tdict u lo)) "target_incline" =
          some (.tdict u lo)) ∧
    (∀ el (l : List JValue), ∀ acc,
      (∀ t ∈ l, ∃ td od es ee, t = .dict td ∧ dget td "offsets" = some (.dict od) ∧
        dget od "end" = some (.int ee) ∧ dget od "start" = some (.int es) ∧
        ¬(PRat.le (PRat.ofInt es) el ∧ PRat.le el (PRat.ofInt ee))) →
      l.foldlM (target_step el) acc = .ok acc) ∧
    (∀ mets k b, dget mets k = (none : Option SData) → target_bound mets k b = .ok (.j .null)) ∧
    (∀ ws now, dget ws "start_time" = none → compute_elapsed ws now = .ok (PRat.ofInt now)) := by
  refine ⟨?_, ?_, ?_, ?_, ?_, ?_, ?_, ?_⟩
  · intro el acc td od ms es ee h1 h2 h3 h4 hle1 hle2
    simp [target_step, pySubJ, pySub, h1, h2, h3, h4, py_num, iter_elems, hle1, hle2,
      Bind.bind, Except.bind]
  · intro el acc td od ee h1 h2 hle
    simp [target_step, pySubJ, pySub, h1, h2, py_num, hle, Bind.bind, Except.bind]
  · intro el acc td od es ee h1 h2 h3 hle1 hle2
    simp [target_step, pySubJ, pySub, h1, h2, h3, py_num, hle1, hle2, Bind.bind, Except.bind]
  · intro a b
    simp [PRat.le, PRat.ofInt]
  · intro acc d u lo h1 h2 h3
    refine ⟨?_, dget_dinsert_self acc "target_incline" (.tdict u lo)⟩
    simp [target_entry_step, h1, pySub, h2, h3, Bind.bind, Except.bind]
  · intro el l
    induction l with
    | nil => intro acc h; simp [List.foldlM, pure, Except.pure]
    | cons t rest ih =>
      intro acc h
      obtain ⟨td, od, es, ee, rfl, hoffs, hee, hes, hnot⟩ := h _ (List.mem_cons_self _ _)
      have hstep : target_step el acc (.dict td) = .ok acc := by
        by_cases hle : PRat.le el (PRat.ofInt ee)
        · have hns : ¬ PRat.le (PRat.ofInt es) el := fun hc => hnot ⟨hc, hle⟩
          simp [target_step, pySubJ, pySub, hoffs, hee, hes, py_num, hle, hns,
            Bind.bind, Except.bind]
        · simp [target_step, pySubJ, pySub, hoffs, hee, py_num, hle, Bind.bind, Except.bind]
      rw [List.foldlM_cons, hstep]
      simp only [Bind.bind, Except.bind]
      exact ih acc (fun x hx => h x (List.mem_cons_of_mem _ hx))
  · intro mets k b h
    simp [target_bound, h]
  · intro ws now h
    simp [compute_elapsed, h, py_num, PRat.sub, PRat.ofInt, Bind.bind, Except.bind]

/-- Witness for C4: the window of the spec's scenario, entered at the
inclusive right endpoint; the boundary comparison at `601 <= 600`; the
missing-`start_time` fallback. -/
theorem target_window_selection_witness :
    target_step (PRat.ofInt 600) []
      (.dict [("offsets", .dict [("start", .int 0), ("end", .int 600)]),
        ("metrics", .list [.dict [("name", .str "incline"), ("upper", .int 5),
          ("lower", .int 2)]])]) =
      [JValue.dict [("name", .str "incline"), ("upper", .int 5),
        ("lower", .int 2)]].foldlM target_entry_step [] ∧
    (PRat.le (PRat.ofInt 601) (PRat.ofInt 600) ↔ (601 : Int) ≤ 600) ∧
    compute_elapsed [] 42 = .ok (PRat.ofInt 42) :=
  ⟨target_window_selection.1 (PRat.ofInt 600) [] _ _ _ 0 600 rfl rfl rfl rfl
      (by decide) (by decide),
   target_window_selection.2.2.2.1 601 600,
   target_window_selection.2.2.2.2.2.2.2 [] 42 rfl⟩

/-! ### Well-formedness for the no-exception property (C7) -/

/-- Whether a value is a Python dict. -/
def is_dict : JValue → Bool
  | .dict _ => true
  | _ => false

/-- An entry's `values` field supports the `(... or [None])[-1]` idiom:
absent, falsy, or a list. -/
def wf_values_field (d : List (String × JValue)) : Bool :=
  match dget d "values" with
  | none => true
  | some v => !truthy v || (match v with | .list _ => true | _ => false)

/-- An element reachable by the metric-extraction loop: a dict with a
usable `values` field. -/
def wf_metric_core (e : JValue) : Bool :=
  match e with
  | .dict d => wf_values_field d
  | _ => false

/-- A top-level metric entry: additionally its `alternatives` field, if
present and truthy, is a list of extraction-safe elements. -/
def wf_metric_entry (e : JValue) : Bool :=
  match e with
  | .dict d =>
    wf_values_field d &&
    (match dget d "alternatives" with
     | none => true
     | some v => !truthy v ||
        (match v with | .list xs => xs.all wf_metric_core | _ => false))
  | _ => false

/-- An element of a window's `metrics` list: a dict, and when its name
is a recognised target name the subscripted `upper`/`lower` keys are
present. -/
def wf_target_metric (e : JValue) : Bool :=
  match e with
  | .dict d =>
    (match dget d "name" with
     | some (.str "speed") => (dget d "upper").isSome && (dget d "lower").isSome
     | some (.str "incline") => (dget d "upper").isSome && (dget d "lower").isSome
     | _ => true)
  | _ => false

/-- A target window: a dict whose subscripted `offsets` is a dict with
numeric `end` and `start`, and whose subscripted `metrics` is a list of
well-formed elements. -/
def wf_target (e : JValue) : Bool :=
  match e with
  | .dict d =>
    (match dget d "offsets" with
     | some (.dict o) =>
       (match dget o "end" with | some ev => is_num ev | none => false) &&
       (match dget o "start" with | some sv => is_num sv | none => false)
     | _ => false) &&
    (match dget d "metrics" with
     | some (.list ms) => ms.all wf_target_metric
     | _ => false)
  | _ => false

/-- The `timezone` field is absent, falsy, or a string. -/
def wf_tz_field (ws : List (String × JValue)) : Bool :=
  match dget ws "timezone" with
  | none => true
  | some v => !truthy v || (match v with | .str _ => true | _ => false)

/-- The `start_time` field is absent or numeric (it is both subtracted
from `now` and passed to `fromtimestamp`). -/
def wf_start_field (ws : List (String × JValue)) : Bool :=
  match dget ws "start_time" with
  | none => true
  | some v => is_num v

/-- The `end_time` field is absent, null, or numeric. -/
def wf_end_field (ws : List (String × JValue)) : Bool :=
  match dget ws "end_time" with
  | none => true
  | some .null => true
  | some v => is_num v

/-- The `ride` field is absent or a dict whose `duration` is absent,
falsy, or numeric. -/
def wf_ride_field (ws : List (String × JValue)) : Bool :=
  match dget ws "ride" with
  | none => true
  | some (.dict r) =>
    (match dget r "duration" with
     | none => true
     | some dv => !truthy dv || is_num dv)
  | some _ => false

/-- The summary document's fields are of workable runtime types. -/
def wf_summary_doc (ws : List (String × JValue)) : Bool :=
  wf_tz_field ws && wf_start_field ws && wf_end_field ws && wf_ride_field ws

/-- The `summaries` collection is absent or a list of dicts. -/
def wf_sums_field (wd : List (String × JValue)) : Bool :=
  match dget wd "summaries" with
  | none => true
  | some (.list xs) => xs.all is_dict
  | some _ => false

/-- The `metrics` collection is absent or a list of well-formed metric
entries. -/
def wf_mets_field (wd : List (String × JValue)) : Bool :=
  match dget wd "metrics" with
  | none => true
  | some (.list xs) => xs.all wf_metric_entry
  | some _ => false

/-- The target-metrics structure is absent or a dict whose
`target_metrics` is absent or a list of well-formed windows. -/
def wf_targets_field (wd : List (String × JValue)) : Bool :=
  match dget wd "target_metrics_performance_data" with
  | none => true
  | some (.dict t) =>
    (match dget t "target_metrics" with
     | none => true
     | some (.list xs) => xs.all wf_target
     | some _ => false)
  | some _ => false

/-- The detail document's collections are lists of well-formed
entries. -/
def wf_detail_doc (wd : List (String × JValue)) : Bool :=
  wf_sums_field wd && wf_mets_field wd && wf_targets_field wd

/-- Well-formed input pair: both documents are dicts whose fields,
where present, have workable runtime types. -/
def wf_input (wsj wdj : JValue) : Bool :=
  match wsj, wdj with
  | .dict ws, .dict wd => wf_summary_doc ws && wf_detail_doc wd
  | _, _ => false

/-- Every value of the working summaries dict is a `PelotonSummary`. -/
def SOnly (m : List (String × SData)) : Prop :=
  ∀ k v, dget m k = some v → ∃ s, v = SData.summary s

/-- Every value of the working metrics dict is a `PelotonMetric`. -/
def MOnly (m : List (String × SData)) : Prop :=
  ∀ k v, dget m k = some v → ∃ pm, v = SData.metric pm

/-- The working metrics dict has no target keys yet. -/
def NT (m : List (String × SData)) : Prop :=
  dget m "target_speed" = none ∧ dget m "target_incline" = none

theorem dget_dinsert_cases {α : Type} {m : List (String × α)} {k k2 : String}
    {v v2 : α} (h : dget (dinsert m k v) k2 = some v2) :
    (k2 = k ∧ v2 = v) ∨ dget m k2 = some v2 := by
  by_cases hk : k2 = k
  · subst hk
    rw [dget_dinsert_self] at h
    exact Or.inl ⟨rfl, (Option.some.injEq ..).mp h.symm⟩
  · rw [dget_dinsert_ne m k k2 v hk] at h
    exact Or.inr h

theorem SOnly_insert {m : List (String × SData)} (h : SOnly m) (k : String)
    (s : PelotonSummary) : SOnly (dinsert m k (.summary s)) := by
  intro k2 v2 hv
  rcases dget_dinsert_cases hv with ⟨hk, hveq⟩ | hMem
  · exact ⟨s, hveq⟩
  · exact h _ _ hMem

theorem MOnly_insert {m : List (String × SData)} (h : MOnly m) (k : String)
    (pm : PelotonMetric) : MOnly (dinsert m k (.metric pm)) := by
  intro k2 v2 hv
  rcases dget_dinsert_cases hv with ⟨hk, hveq⟩ | hMem
  · exact ⟨pm, hveq⟩
  · exact h _ _ hMem

theorem NT_insert {m : List (String × SData)} (h : NT m) {k : String}
    (hk1 : k ≠ "target_speed") (hk2 : k ≠ "target_incline") (v : SData) :
    NT (dinsert m k v) := by
  constructor
  · rw [dget_dinsert_ne m k "target_speed" v (Ne.symm hk1)]; exact h.1
  · rw [dget_dinsert_ne m k "target_incline" v (Ne.symm hk2)]; exact h.2

theorem summary_step_ok (acc : List (String × SData)) (d : List (String × JValue)) :
    ∃ m, summary_step acc (.dict d) = .ok m ∧ (SOnly acc → SOnly m) := by
  cases hs : dget d "slug" with
  | none => exact ⟨acc, by simp [summary_step, hs], fun h => h⟩
  | some v =>
    cases v with
    | str s =>
      by_cases h1 : s = "calories"
      · subst h1
        have heq : summary_step acc (.dict d) = .ok (dinsert acc "calories"
            (.summary ⟨int_check (dget d "value"), "kcal", none⟩)) := by
          simp [summary_step, hs]
        exact ⟨_, heq, fun h => SOnly_insert h _ _⟩
      · by_cases h2 : s = "distance"
        · subst h2
          have heq : summary_step acc (.dict d) = .ok (dinsert acc "distance"
              (.summary ⟨float_check (dget d "value"),
                pyStr ((dget d "display_unit").getD .null), none⟩)) := by
            simp [summary_step, hs]
          exact ⟨_, heq, fun h => SOnly_insert h _ _⟩
        · by_cases h3 : s = "elevation"
          · subst h3
            have heq : summary_step acc (.dict d) = .ok (dinsert acc "elevation"
                (.summary ⟨int_check (dget d "value"),
                  pyStr ((dget d "display_unit").getD .null), none⟩)) := by
              simp [summary_step, hs]
            exact ⟨_, heq, fun h => SOnly_insert h _ _⟩
          · refine ⟨acc, ?_, fun h => h⟩
            simp only [summary_step, hs]
            split <;> simp_all
    | null => exact ⟨acc, by simp [summary_step, hs], fun h => h⟩
    | boolean b => exact ⟨acc, by simp [summary_step, hs], fun h => h⟩
    | int n => exact ⟨acc, by simp [summary_step, hs], fun h => h⟩
    | float q => exact ⟨acc, by simp [summary_step, hs], fun h => h⟩
    | list xs => exact ⟨acc, by simp [summary_step, hs], fun h => h⟩
    | dict d2 => exact ⟨acc, by simp [summary_step, hs], fun h => h⟩

theorem summary_fold_ok (l : List JValue) :
    ∀ acc, (∀ e ∈ l, is_dict e = true) → SOnly acc →
    ∃ m, l.foldlM summary_step acc = .ok m ∧ SOnly m := by
  induction l with
  | nil => intro acc _ hacc; exact ⟨acc, rfl, hacc⟩
  | cons e rest ih =>
    intro acc hl hacc
    have hd : ∃ d, e = JValue.dict d := by
      have := hl e (List.mem_cons_self ..)
      cases e <;> simp [is_dict] at this
      exact ⟨_, rfl⟩
    obtain ⟨d, rfl⟩ := hd
    obtain ⟨m1, h1, hS1⟩ := summary_step_ok acc d
    obtain ⟨m, h2, hS⟩ := ih m1 (fun x hx => hl x (List.mem_cons_of_mem _ hx)) (hS1 hacc)
    refine ⟨m, ?_, hS⟩
    rw [List.foldlM_cons, h1]
    simpa [Bind.bind, Except.bind] using h2

theorem py_num_ok {v : JValue} (h : is_num v = true) : ∃ q, py_num v = .ok q := by
  cases v with
  | int n => exact ⟨_, rfl⟩
  | float q => exact ⟨_, rfl⟩
  | boolean b => exact ⟨_, rfl⟩
  | null => simp [is_num] at h
  | str s => simp [is_num] at h
  | list xs => simp [is_num] at h
  | dict d => simp [is_num] at h

theorem last_of_values_ok {d : List (String × JValue)} (h : wf_values_field d = true) :
    ∃ x, last_of_values d = .ok x := by
  unfold wf_values_field at h
  cases hv : dget d "values" with
  | none => exact ⟨.null, by simp [last_of_values, hv, truthy]⟩
  | some v =>
    rw [hv] at h
    by_cases ht : truthy v = true
    · have hlist : ∃ xs, v = JValue.list xs := by
        cases v <;> first | exact ⟨_, rfl⟩ | simp_all
      obtain ⟨xs, rfl⟩ := hlist
      cases xs with
      | nil => simp [truthy] at ht
      | cons x t =>
        have h2 : ∃ y, (x :: t).getLast? = some y := by
          cases hh : (x :: t).getLast? with
          | none => simp [List.getLast?_eq_none_iff] at hh
          | some y => exact ⟨y, rfl⟩
        obtain ⟨y, hy⟩ := h2
        exact ⟨y, by simp [last_of_values, hv, truthy, hy]⟩
    · have ht2 : truthy v = false := by simpa using ht
      exact ⟨.null, by simp [last_of_values, hv, ht2]⟩

/-- An element safe for the metric-extraction loop. -/
def mcore (e : JValue) : Prop := ∃ d, e = JValue.dict d ∧ wf_values_field d = true

theorem mcore_of_core {x : JValue} (h : wf_metric_core x = true) : mcore x := by
  cases x with
  | dict d => exact ⟨d, rfl, h⟩
  | null => simp [wf_metric_core] at h
  | boolean b => simp [wf_metric_core] at h
  | int n => simp [wf_metric_core] at h
  | float q => simp [wf_metric_core] at h
  | str s => simp [wf_metric_core] at h
  | list xs => simp [wf_metric_core] at h

theorem flatten_step_ok {e : JValue} (he : wf_metric_entry e = true)
    (acc : List JValue) (hacc : ∀ x ∈ acc, mcore x) :
    ∃ fl, flatten_step acc e = .ok fl ∧ ∀ x ∈ fl, mcore x := by
  cases e with
  | dict d =>
    simp only [wf_metric_entry, Bool.and_eq_true] at he
    obtain ⟨hvals, halts⟩ := he
    cases ha : dget d "alternatives" with
    | none =>
      refine ⟨acc ++ [.dict d], by simp [flatten_step, ha], ?_⟩
      intro x hx
      rcases List.mem_append.mp hx with hx | hx
      · exact hacc x hx
      · simp at hx; subst hx; exact ⟨d, rfl, hvals⟩
    | some av =>
      rw [ha] at halts
      by_cases ht : truthy av = true
      · have hlist : ∃ xs, av = JValue.list xs ∧ xs.all wf_metric_core = true := by
          cases av <;> simp_all
        obtain ⟨xs, rfl, hxs⟩ := hlist
        refine ⟨acc ++ [.dict d] ++ xs, ?_, ?_⟩
        · simp [flatten_step, ha, ht, iter_elems, Bind.bind, Except.bind]
        · intro x hx
          rcases List.mem_append.mp hx with hx | hx
          · rcases List.mem_append.mp hx with hx | hx
            · exact hacc x hx
            · simp at hx; subst hx; exact ⟨d, rfl, hvals⟩
          · exact mcore_of_core (List.all_eq_true.mp hxs x hx)
      · have ht2 : truthy av = false := by simpa using ht
        refine ⟨acc ++ [.dict d], by simp [flatten_step, ha, ht2], ?_⟩
        intro x hx
        rcases List.mem_append.mp hx with hx | hx
        · exact hacc x hx
        · simp at hx; subst hx; exact ⟨d, rfl, hvals⟩
  | null => simp [wf_metric_entry] at he
  | boolean b => simp [wf_metric_entry] at he
  | int n => simp [wf_metric_entry] at he
  | float q => simp [wf_metric_entry] at he
  | str s => simp [wf_metric_entry] at he
  | list xs => simp [wf_metric_entry] at he

theorem flatten_fold_ok (l : List JValue) :
    ∀ acc, (∀ e ∈ l, wf_metric_entry e = true) → (∀ x ∈ acc, mcore x) →
    ∃ fl, l.foldlM flatten_step acc = .ok fl ∧ ∀ x ∈ fl, mcore x := by
  induction l with
  | nil => intro acc _ hacc; exact ⟨acc, rfl, hacc⟩
  | cons e rest ih =>
    intro acc hl hacc
    obtain ⟨fl1, h1, hm1⟩ := flatten_step_ok (hl e (List.mem_cons_self ..)) acc hacc
    obtain ⟨fl, h2, hm⟩ := ih fl1 (fun x hx => hl x (List.mem_cons_of_mem _ hx)) hm1
    refine ⟨fl, ?_, hm⟩
    rw [List.foldlM_cons, h1]
    simpa [Bind.bind, Except.bind] using h2

theorem metric_step_ok (acc : List (String × SData)) {e : JValue} (he : mcore e) :
    ∃ m, metric_step acc e = .ok m ∧ (MOnly acc → MOnly m) ∧ (NT acc → NT m) := by
  obtain ⟨d, rfl, hvals⟩ := he
  cases hs : dget d "slug" with
  | none => exact ⟨acc, by simp [metric_step, hs], fun h => h, fun h => h⟩
  | some v =>
    cases v with
    | str s =>
      cases hint : dget int_stats s with
      | some du_dc =>
        obtain ⟨x, hx⟩ := last_of_values_ok hvals
        have hk1 : s ≠ "target_speed" := by
          intro hc; subst hc; simp [int_stats, dget] at hint
        have hk2 : s ≠ "target_incline" := by
          intro hc; subst hc; simp [int_stats, dget] at hint
        have heq : metric_step acc (.dict d) = .ok (dinsert acc s (.metric
            ⟨int_check (dget d "max_value"), int_check (dget d "average_value"),
             if is_int x then x else .null,
             pyStr ((dget d "display_unit").getD (.str du_dc.1)), du_dc.2⟩)) := by
          simp [metric_step, hs, hint, hx, Bind.bind, Except.bind]
        exact ⟨_, heq, fun h => MOnly_insert h _ _, fun h => NT_insert h hk1 hk2 _⟩
      | none =>
        by_cases hfs : float_stats.contains s = true
        · obtain ⟨x, hx⟩ := last_of_values_ok hvals
          have hk1 : s ≠ "target_speed" := by
            intro hc; subst hc; simp [float_stats] at hfs
          have hk2 : s ≠ "target_incline" := by
            intro hc; subst hc; simp [float_stats] at hfs
          have hfsm : s ∈ float_stats := by simpa using hfs
          have heq : metric_step acc (.dict d) = .ok (dinsert acc s (.metric
              ⟨float_check (dget d "max_value"), float_check (dget d "average_value"),
               if is_float x then x else .null,
               pyStr ((dget d "display_unit").getD .null), none⟩)) := by
            simp [metric_step, hs, hint, hfsm, hx, Bind.bind, Except.bind]
          exact ⟨_, heq, fun h => MOnly_insert h _ _, fun h => NT_insert h hk1 hk2 _⟩
        · have hfs2 : s ∉ float_stats := by simpa using hfs
          exact ⟨acc, by simp [metric_step, hs, hint, hfs2], fun h => h, fun h => h⟩
    | null => exact ⟨acc, by simp [metric_step, hs], fun h => h, fun h => h⟩
    | boolean b => exact ⟨acc, by simp [metric_step, hs], fun h => h, fun h => h⟩
    | int n => exact ⟨acc, by simp [metric_step, hs], fun h => h, fun h => h⟩
    | float q => exact ⟨acc, by simp [metric_step, hs], fun h => h, fun h => h⟩
    | list xs => exact ⟨acc, by simp [metric_step, hs], fun h => h, fun h => h⟩
    | dict d2 => exact ⟨acc, by simp [metric_step, hs], fun h => h, fun h => h⟩

theorem metric_fold_ok (l : List JValue) :
    ∀ acc, (∀ e ∈ l, mcore e) → MOnly acc → NT acc →
    ∃ m, l.foldlM metric_step acc = .ok m ∧ MOnly m ∧ NT m := by
  induction l with
  | nil => intro acc _ hM hN; exact ⟨acc, rfl, hM, hN⟩
  | cons e rest ih =>
    intro acc hl hM hN
    obtain ⟨m1, h1, hM1, hN1⟩ := metric_step_ok acc (hl e (List.mem_cons_self ..))
    obtain ⟨m, h2, hM2, hN2⟩ :=
      ih m1 (fun x hx => hl x (List.mem_cons_of_mem _ hx)) (hM1 hM) (hN1 hN)
    refine ⟨m, ?_, hM2, hN2⟩
    rw [List.foldlM_cons, h1]
    simpa [Bind.bind, Except.bind] using h2

/-- Relation between the metrics dict before and after target-window
processing: non-target keys are untouched, and any changed binding is a
target-bounds dict. -/
def tprop (acc m : List (String × SData)) : Prop :=
  (∀ k, k ≠ "target_speed" → k ≠ "target_incline" → dget m k = dget acc k) ∧
  (∀ k v, dget m k = some v → dget acc k = some v ∨ ∃ u lo, v = SData.tdict u lo)

theorem tprop_refl (acc : List (String × SData)) : tprop acc acc :=
  ⟨fun _ _ _ => rfl, fun _ _ h => Or.inl h⟩

theorem tprop_trans {a b c : List (String × SData)} (h1 : tprop a b) (h2 : tprop b c) :
    tprop a c := by
  constructor
  · intro k hk1 hk2
    rw [h2.1 k hk1 hk2, h1.1 k hk1 hk2]
  · intro k v hv
    rcases h2.2 k v hv with hb | ht
    · exact h1.2 k v hb
    · exact Or.inr ht

theorem tprop_insert (acc : List (String × SData)) (k : String) (u lo : JValue)
    (hk : k = "target_speed" ∨ k = "target_incline") :
    tprop acc (dinsert acc k (.tdict u lo)) := by
  constructor
  · intro k2 hk1 hk2
    refine dget_dinsert_ne acc k k2 _ ?_
    rcases hk with rfl | rfl
    · exact hk1
    · exact hk2
  · intro k2 v hv
    rcases dget_dinsert_cases hv with ⟨hke, hveq⟩ | hMem
    · exact Or.inr ⟨u, lo, hveq⟩
    · exact Or.inl hMem

theorem target_entry_step_ok (acc : List (String × SData)) {e : JValue}
    (he : wf_target_metric e = true) :
    ∃ m, target_entry_step acc e = .ok m ∧ tprop acc m := by
  cases e with
  | dict d =>
    simp only [wf_target_metric] at he
    cases hn : dget d "name" with
    | none => exact ⟨acc, by simp [target_entry_step, hn], tprop_refl acc⟩
    | some v =>
      rw [hn] at he
      cases v with
      | str s =>
        by_cases h1 : s = "speed"
        · subst h1
          simp only [Bool.and_eq_true, Option.isSome_iff_exists] at he
          obtain ⟨⟨u, hu⟩, lo, hlo⟩ := he
          have heq : target_entry_step acc (.dict d) =
              .ok (dinsert acc "target_speed" (.tdict u lo)) := by
            simp [target_entry_step, hn, pySub, hu, hlo, Bind.bind, Except.bind]
          exact ⟨_, heq, tprop_insert acc _ u lo (Or.inl rfl)⟩
        · by_cases h2 : s = "incline"
          · subst h2
            simp only [Bool.and_eq_true, Option.isSome_iff_exists] at he
            obtain ⟨⟨u, hu⟩, lo, hlo⟩ := he
            have heq : target_entry_step acc (.dict d) =
                .ok (dinsert acc "target_incline" (.tdict u lo)) := by
              simp [target_entry_step, hn, pySub, hu, hlo, Bind.bind, Except.bind]
            exact ⟨_, heq, tprop_insert acc _ u lo (Or.inr rfl)⟩
          · refine ⟨acc, ?_, tprop_refl acc⟩
            simp only [target_entry_step, hn]
            split <;> simp_all
      | null => exact ⟨acc, by simp [target_entry_step, hn], tprop_refl acc⟩
      | boolean b => exact ⟨acc, by simp [target_entry_step, hn], tprop_refl acc⟩
      | int n => exact ⟨acc, by simp [target_entry_step, hn], tprop_refl acc⟩
      | float q => exact ⟨acc, by simp [target_entry_step, hn], tprop_refl acc⟩
      | list xs => exact ⟨acc, by simp [target_entry_step, hn], tprop_refl acc⟩
      | dict d2 => exact ⟨acc, by simp [target_entry_step, hn], tprop_refl acc⟩
  | null => simp [wf_target_metric] at he
  | boolean b => simp [wf_target_metric] at he
  | int n => simp [wf_target_metric] at he
  | float q => simp [wf_target_metric] at he
  | str s => simp [wf_target_metric] at he
  | list xs => simp [wf_target_metric] at he

theorem target_entries_fold_ok (ms : List JValue) :
    ∀ acc, (∀ e ∈ ms, wf_target_metric e = true) →
    ∃ m, ms.foldlM target_entry_step acc = .ok m ∧ tprop acc m := by
  induction ms with
  | nil => intro acc _; exact ⟨acc, rfl, tprop_refl acc⟩
  | cons e rest ih =>
    intro acc hl
    obtain ⟨m1, h1, ht1⟩ := target_entry_step_ok acc (hl e (List.mem_cons_self ..))
    obtain ⟨m, h2, ht2⟩ := ih m1 (fun x hx => hl x (List.mem_cons_of_mem _ hx))
    refine ⟨m, ?_, tprop_trans ht1 ht2⟩
    rw [List.foldlM_cons, h1]
    simpa [Bind.bind, Except.bind] using h2

theorem target_step_ok (el : PRat) {t : JValue} (ht : wf_target t = true)
    (acc : List (String × SData)) :
    ∃ m, target_step el acc t = .ok m ∧ tprop acc m := by
  cases t with
  | dict d =>
    simp only [wf_target, Bool.and_eq_true] at ht
    obtain ⟨hoffs_part, hms_part⟩ := ht
    cases ho : dget d "offsets" with
    | none => rw [ho] at hoffs_part; simp at hoffs_part
    | some ov =>
      rw [ho] at hoffs_part
      cases ov with
      | dict o =>
        simp only [Bool.and_eq_true] at hoffs_part
        obtain ⟨hend_part, hstart_part⟩ := hoffs_part
        cases he2 : dget o "end" with
        | none => rw [he2] at hend_part; simp at hend_part
        | some ev =>
          rw [he2] at hend_part
          obtain ⟨eq, heq⟩ := py_num_ok hend_part
          cases hs2 : dget o "start" with
          | none => rw [hs2] at hstart_part; simp at hstart_part
          | some sv =>
            rw [hs2] at hstart_part
            obtain ⟨sq, hsq⟩ := py_num_ok hstart_part
            cases hm : dget d "metrics" with
            | none => rw [hm] at hms_part; simp at hms_part
            | some mv =>
              rw [hm] at hms_part
              cases mv with
              | list ms =>
                have hall : ∀ e ∈ ms, wf_target_metric e = true :=
                  fun e hx => List.all_eq_true.mp hms_part e hx
                by_cases hle1 : PRat.le el eq
                · by_cases hle2 : PRat.le sq el
                  · obtain ⟨m, hm2, htr⟩ := target_entries_fold_ok ms acc hall
                    refine ⟨m, ?_, htr⟩
                    simp [target_step, pySubJ, pySub, ho, he2, hs2, heq, hsq, hm,
                      iter_elems, hle1, hle2, hm2, Bind.bind, Except.bind]
                  · refine ⟨acc, ?_, tprop_refl acc⟩
                    simp [target_step, pySubJ, pySub, ho, he2, hs2, heq, hsq, hle1, hle2,
                      Bind.bind, Except.bind]
                · refine ⟨acc, ?_, tprop_refl acc⟩
                  simp [target_step, pySubJ, pySub, ho, he2, heq, hle1,
                    Bind.bind, Except.bind]
              | null => simp at hms_part
              | boolean b => simp at hms_part
              | int n => simp at hms_part
              | float q => simp at hms_part
              | str s => simp at hms_part
              | dict d2 => simp at hms_part
      | null => simp at hoffs_part
      | boolean b => simp at hoffs_part
      | int n => simp at hoffs_part
      | float q => simp at hoffs_part
      | str s => simp at hoffs_part
      | list xs => simp at hoffs_part
  | null => simp [wf_target] at ht
  | boolean b => simp [wf_target] at ht
  | int n => simp [wf_target] at ht
  | float q => simp [wf_target] at ht
  | str s => simp [wf_target] at ht
  | list xs => simp [wf_target] at ht

theorem target_fold_ok (el : PRat) (l : List JValue) :
    ∀ acc, (∀ t ∈ l, wf_target t = true) →
    ∃ m, l.foldlM (target_step el) acc = .ok m ∧ tprop acc m := by
  induction l with
  | nil => intro acc _; exact ⟨acc, rfl, tprop_refl acc⟩
  | cons t rest ih =>
    intro acc hl
    obtain ⟨m1, h1, ht1⟩ := target_step_ok el (hl t (List.mem_cons_self ..)) acc
    obtain ⟨m, h2, ht2⟩ := ih m1 (fun x hx => hl x (List.mem_cons_of_mem _ hx))
    refine ⟨m, ?_, tprop_trans ht1 ht2⟩
    rw [List.foldlM_cons, h1]
    simpa [Bind.bind, Except.bind] using h2


theorem resolve_tz_ok {ws : List (String × JValue)} (h : wf_tz_field ws = true) :
    ∃ z, resolve_tz ws = .ok z := by
  unfold wf_tz_field at h
  cases htz : dget ws "timezone" with
  | none => exact ⟨gettz "UTC", by simp [resolve_tz, htz]⟩
  | some v =>
    rw [htz] at h
    by_cases ht : truthy v = true
    · have hstr : ∃ s, v = JValue.str s := by
        cases v <;> first | exact ⟨_, rfl⟩ | simp_all
      obtain ⟨s, rfl⟩ := hstr
      exact ⟨gettz s, by simp [resolve_tz, htz, ht]⟩
    · have ht2 : truthy v = false := by simpa using ht
      exact ⟨gettz "UTC", by simp [resolve_tz, htz, ht2]⟩

theorem time_stat_val_ok_start {ws : List (String × JValue)} (z : Option String)
    (h : wf_start_field ws = true) : ∃ x, time_stat_val ws "start_time" z = .ok x := by
  unfold wf_start_field at h
  cases hk : dget ws "start_time" with
  | none => exact ⟨.j .null, by simp [time_stat_val, hk]⟩
  | some v =>
    rw [hk] at h
    cases v with
    | int n =>
      exact ⟨.time (PRat.ofInt n) z,
        by simp [time_stat_val, hk, py_num, Bind.bind, Except.bind]⟩
    | float q =>
      exact ⟨.time q z, by simp [time_stat_val, hk, py_num, Bind.bind, Except.bind]⟩
    | boolean b =>
      exact ⟨.time (PRat.ofInt (if b then 1 else 0)) z,
        by simp [time_stat_val, hk, py_num, Bind.bind, Except.bind]⟩
    | null => simp [is_num] at h
    | str s => simp [is_num] at h
    | list xs => simp [is_num] at h
    | dict d => simp [is_num] at h

theorem time_stat_val_ok_end {ws : List (String × JValue)} (z : Option String)
    (h : wf_end_field ws = true) : ∃ x, time_stat_val ws "end_time" z = .ok x := by
  unfold wf_end_field at h
  cases hk : dget ws "end_time" with
  | none => exact ⟨.j .null, by simp [time_stat_val, hk]⟩
  | some v =>
    rw [hk] at h
    cases v with
    | null => exact ⟨.j .null, by simp [time_stat_val, hk]⟩
    | int n =>
      exact ⟨.time (PRat.ofInt n) z,
        by simp [time_stat_val, hk, py_num, Bind.bind, Except.bind]⟩
    | float q =>
      exact ⟨.time q z, by simp [time_stat_val, hk, py_num, Bind.bind, Except.bind]⟩
    | boolean b =>
      exact ⟨.time (PRat.ofInt (if b then 1 else 0)) z,
        by simp [time_stat_val, hk, py_num, Bind.bind, Except.bind]⟩
    | str s => simp [is_num] at h
    | list xs => simp [is_num] at h
    | dict d => simp [is_num] at h

theorem duration_val_ok {ws : List (String × JValue)} (h : wf_ride_field ws = true) :
    ∃ x, duration_val ws = .ok x := by
  unfold wf_ride_field at h
  cases hr : dget ws "ride" with
  | none => exact ⟨.j .null, by simp [duration_val, hr, dget]⟩
  | some v =>
    rw [hr] at h
    cases v with
    | dict r =>
      have h2 : (match dget r "duration" with
                 | none => true
                 | some dv => !truthy dv || is_num dv) = true := h
      cases hd : dget r "duration" with
      | none => exact ⟨.j .null, by simp [duration_val, hr, hd]⟩
      | some dv =>
        rw [hd] at h2
        replace h := h2
        by_cases ht : truthy dv = true
        · have hnum : is_num dv = true := by simp_all
          obtain ⟨q, hq⟩ := py_num_ok hnum
          exact ⟨.j (.float (PRat.divInt q 60)),
            by simp [duration_val, hr, hd, ht, hq, Bind.bind, Except.bind]⟩
        · have ht2 : truthy dv = false := by simpa using ht
          exact ⟨.j .null, by simp [duration_val, hr, hd, ht2]⟩
    | null => simp at h
    | boolean b => simp at h
    | int n => simp at h
    | float q => simp at h
    | str s => simp at h
    | list xs => simp at h

theorem compute_elapsed_ok {ws : List (String × JValue)} (now : Int)
    (h : wf_start_field ws = true) : ∃ q, compute_elapsed ws now = .ok q := by
  unfold wf_start_field at h
  cases hk : dget ws "start_time" with
  | none =>
    exact ⟨PRat.sub (PRat.ofInt now) (PRat.ofInt 0),
      by simp [compute_elapsed, hk, py_num, Bind.bind, Except.bind]⟩
  | some v =>
    rw [hk] at h
    obtain ⟨q, hq⟩ := py_num_ok h
    exact ⟨PRat.sub (PRat.ofInt now) q,
      by simp [compute_elapsed, hk, hq, Bind.bind, Except.bind]⟩

theorem target_bound_ok (mets : List (String × SData)) (k : String)
    (hk : ∀ v, dget mets k = some v → ∃ u lo, v = SData.tdict u lo) (b : Bool) :
    ∃ x, target_bound mets k b = .ok x := by
  cases hg : dget mets k with
  | none => exact ⟨.j .null, by simp [target_bound, hg]⟩
  | some v =>
    obtain ⟨u, lo, rfl⟩ := hk v hg
    exact ⟨.j (if b then u else lo), by simp [target_bound, hg]⟩

theorem make_stat_data_ok (data : Option SData)
    (h : ∀ v, data = some v → (∃ pm, v = SData.metric pm) ∨ (∃ s, v = SData.summary s))
    (name stat : String) (icon : Option String) :
    ∃ s, make_stat data name stat icon = .ok s := by
  cases data with
  | none => exact ⟨⟨name, .j .null, none, none, "measurement", icon⟩, rfl⟩
  | some v =>
    rcases h v rfl with ⟨pm, rfl⟩ | ⟨s, rfl⟩
    · exact ⟨⟨name, getattr_stat (.metric pm) stat, some pm.unit, pm.device_cls,
        "measurement", icon⟩,
        by simp [make_stat, attr_unit, attr_dc, Bind.bind, Except.bind]⟩
    · exact ⟨⟨name, getattr_stat (.summary s) stat, some s.unit, s.device_cls,
        "measurement", icon⟩,
        by simp [make_stat, attr_unit, attr_dc, Bind.bind, Except.bind]⟩

theorem assemble_ok {ws : List (String × JValue)} (zone : Option String)
    {sums mets : List (String × SData)}
    (h1 : wf_start_field ws = true) (h2 : wf_end_field ws = true)
    (h3 : wf_ride_field ws = true) (hsums : SOnly sums)
    (hmk : ∀ k v, k ≠ "target_speed" → k ≠ "target_incline" →
      dget mets k = some v → ∃ pm, v = SData.metric pm)
    (htk : ∀ k v, k = "target_speed" ∨ k = "target_incline" →
      dget mets k = some v → ∃ u lo, v = SData.tdict u lo) :
    ∃ l, assemble ws zone sums mets = .ok l := by
  obtain ⟨stv, hstv⟩ := time_stat_val_ok_start zone h1
  obtain ⟨etv, hetv⟩ := time_stat_val_ok_end zone h2
  obtain ⟨dv, hdv⟩ := duration_val_ok h3
  obtain ⟨tiu, htiu⟩ := target_bound_ok mets "target_incline"
    (fun v hv => htk "target_incline" v (Or.inr rfl) hv) true
  obtain ⟨til, htil⟩ := target_bound_ok mets "target_incline"
    (fun v hv => htk "target_incline" v (Or.inr rfl) hv) false
  obtain ⟨tsu, htsu⟩ := target_bound_ok mets "target_speed"
    (fun v hv => htk "target_speed" v (Or.inl rfl) hv) true
  obtain ⟨tsl, htsl⟩ := target_bound_ok mets "target_speed"
    (fun v hv => htk "target_speed" v (Or.inl rfl) hv) false
  obtain ⟨s1, hs1⟩ := make_stat_data_ok (dget sums "distance")
    (fun v hv => Or.inr (hsums _ v hv)) "Distance" "total" (some "mdi:map-marker-distance")
  obtain ⟨s2, hs2⟩ := make_stat_data_ok (dget sums "calories")
    (fun v hv => Or.inr (hsums _ v hv)) "Calories" "total" (some "mdi:fire")
  obtain ⟨s3, hs3⟩ := make_stat_data_ok (dget mets "heart_rate")
    (fun v hv => Or.inl (hmk "heart_rate" v (by decide) (by decide) hv))
    "Heart Rate: Average" "avg_val" (some "mdi:heart-pulse")
  obtain ⟨s4, hs4⟩ := make_stat_data_ok (dget mets "heart_rate")
    (fun v hv => Or.inl (hmk "heart_rate" v (by decide) (by decide) hv))
    "Heart Rate: Max" "max_val" (some "mdi:heart-pulse")
  obtain ⟨s5, hs5⟩ := make_stat_data_ok (dget mets "resistance")
    (fun v hv => Or.inl (hmk "resistance" v (by decide) (by decide) hv))
    "Resistance: Average" "avg_val" (some "mdi:network-strength-2")
  obtain ⟨s6, hs6⟩ := make_stat_data_ok (dget mets "resistance")
    (fun v hv => Or.inl (hmk "resistance" v (by decide) (by decide) hv))
    "Resistance: Max" "max_val" (some "mdi:network-strength-4")
  obtain ⟨s7, hs7⟩ := make_stat_data_ok (dget mets "speed")
    (fun v hv => Or.inl (hmk "speed" v (by decide) (by decide) hv))
    "Speed: Average" "avg_val" (some "mdi:speedometer-medium")
  obtain ⟨s8, hs8⟩ := make_stat_data_ok (dget mets "speed")
    (fun v hv => Or.inl (hmk "speed" v (by decide) (by decide) hv))
    "Speed: Max" "max_val" (some "mdi:speedometer")
  obtain ⟨s9, hs9⟩ := make_stat_data_ok (dget mets "speed")
    (fun v hv => Or.inl (hmk "speed" v (by decide) (by decide) hv))
    "Speed: Most Recent" "last_val" (some "mdi:speedometer")
  obtain ⟨s10, hs10⟩ := make_stat_data_ok (dget mets "incline")
    (fun v hv => Or.inl (hmk "incline" v (by decide) (by decide) hv))
    "Incline: Average" "avg_val" (some "mdi:slope-uphill")
  obtain ⟨s11, hs11⟩ := make_stat_data_ok (dget mets "incline")
    (fun v hv => Or.inl (hmk "incline" v (by decide) (by decide) hv))
    "Incline: Max" "max_val" (some "mdi:slope-uphill")
  obtain ⟨s12, hs12⟩ := make_stat_data_ok (dget mets "incline")
    (fun v hv => Or.inl (hmk "incline" v (by decide) (by decide) hv))
    "Incline: Most Recent" "last_val" (some "mdi:slope-uphill")
  obtain ⟨s13, hs13⟩ := make_stat_data_ok (dget mets "cadence")
    (fun v hv => Or.inl (hmk "cadence" v (by decide) (by decide) hv))
    "Cadence: Average" "avg_val" (some "mdi:fan")
  obtain ⟨s14, hs14⟩ := make_stat_data_ok (dget mets "cadence")
    (fun v hv => Or.inl (hmk "cadence" v (by decide) (by decide) hv))
    "Cadence: Max" "max_val" (some "mdi:fan-chevron-up")
  have heq : assemble ws zone sums mets = .ok
      [⟨"Start Time", stv, none, some "timestamp", "measurement", some "mdi:timer-sand"⟩,
       ⟨"End Time", etv, none, some "timestamp", "measurement", some "mdi:timer-sand-complete"⟩,
       ⟨"Duration", dv, some "min", none, "measurement", some "mdi:timer-outline"⟩,
       ⟨"Leaderboard: Rank", leaderboard_val ws "leaderboard_rank", none, none,
         "measurement", some "mdi:trophy-award"⟩,
       ⟨"Leaderboard: Total Users", leaderboard_val ws "total_leaderboard_users", none, none,
         "measurement", some "mdi:account-group"⟩,
       ⟨"Power Output", power_val ws, some "Wh", some "energy", "measurement", none⟩,
       ⟨"Target Incline Upper", tiu, some "%", none, "measurement", some "mdi:slope-uphill"⟩,
       ⟨"Target Incline Lower", til, some "%", none, "measurement", some "mdi:slope-downhill"⟩,
       ⟨"Target Speed Upper", tsu, speed_unit mets, none, "measurement", some "mdi:speedometer"⟩,
       ⟨"Target Speed Lower", tsl, speed_unit mets, none, "measurement", some "mdi:speedometer-slow"⟩,
       s1, s2, s3, s4, s5, s6, s7, s8, s9, s10, s11, s12, s13, s14] := by
    simp [assemble, hstv, hetv, hdv, htiu, htil, htsu, htsl,
      hs1, hs2, hs3, hs4, hs5, hs6, hs7, hs8, hs9, hs10, hs11, hs12, hs13, hs14,
      Bind.bind, Except.bind]
  exact ⟨_, heq⟩

/-- Counterexample to C7 as stated: a detail document whose (otherwise
well-formed) target window lacks the `offsets` key makes
`compile_quant_data` raise `KeyError` (bracket subscription at source
line 201) instead of degrading that stat to `None`. -/
theorem target_window_missing_offsets_counterexample :
    compile_quant_data (.dict [])
      (.dict [("target_metrics_performance_data",
        .dict [("target_metrics", .list [.dict []])])]) 0 =
      .error "KeyError: offsets" := rfl

/-- C7 (amended): `compile_quant_data` raises no exception on any input
pair in which both documents are dicts, field values that are read have
workable runtime types (time-like fields numeric where present, the
collections lists of dicts, entry `values`/`alternatives` fields
list-valued when truthy), and every target window carries its
subscripted `offsets.start`/`offsets.end` numbers and `metrics` list in
which each `speed`/`incline` entry has its subscripted
`upper`/`lower` keys; all remaining absent-or-mistyped fields degrade
locally to a `None`-valued stat and the other stats are still
compiled.  (As stated the claim is false: the bracket subscriptions of
source lines 201-213 raise `KeyError` on a window missing `offsets`,
`start`, `end`, `metrics`, `upper` or `lower`.) -/
theorem compile_no_exception_on_wf (wsj wdj : JValue) (now : Int)
    (h : wf_input wsj wdj = true) :
    ∃ l, compile_quant_data wsj wdj now = .ok l := by
  cases wsj with
  | dict ws =>
    cases wdj with
    | dict wd =>
      have h2 : ((wf_tz_field ws && wf_start_field ws && wf_end_field ws &&
          wf_ride_field ws) &&
          (wf_sums_field wd && wf_mets_field wd && wf_targets_field wd)) = true := h
      simp only [Bool.and_eq_true] at h2
      obtain ⟨⟨⟨⟨htz, hst⟩, het⟩, hrd⟩, ⟨hsm, hmt⟩, htg⟩ := h2
      obtain ⟨zone, hzone⟩ := resolve_tz_ok htz
      have hsum_list : ∃ xs, get_iter wd "summaries" = .ok xs ∧
          ∀ e ∈ xs, is_dict e = true := by
        unfold wf_sums_field at hsm
        cases hg : dget wd "summaries" with
        | none => exact ⟨[], by simp [get_iter, hg], by simp⟩
        | some v =>
          rw [hg] at hsm
          cases v with
          | list xs =>
            exact ⟨xs, by simp [get_iter, hg, iter_elems],
              fun e he => List.all_eq_true.mp hsm e he⟩
          | null => simp at hsm
          | boolean b => simp at hsm
          | int n => simp at hsm
          | float q => simp at hsm
          | str s => simp at hsm
          | dict d2 => simp at hsm
      obtain ⟨rs, hrs, hrsd⟩ := hsum_list
      obtain ⟨sums, hsums_eq, hSOnly⟩ :=
        summary_fold_ok rs [] hrsd (fun k v hv => by simp [dget] at hv)
      have hmet_list : ∃ xs, get_iter wd "metrics" = .ok xs ∧
          ∀ e ∈ xs, wf_metric_entry e = true := by
        unfold wf_mets_field at hmt
        cases hg : dget wd "metrics" with
        | none => exact ⟨[], by simp [get_iter, hg], by simp⟩
        | some v =>
          rw [hg] at hmt
          cases v with
          | list xs =>
            exact ⟨xs, by simp [get_iter, hg, iter_elems],
              fun e he => List.all_eq_true.mp hmt e he⟩
          | null => simp at hmt
          | boolean b => simp at hmt
          | int n => simp at hmt
          | float q => simp at hmt
          | str s => simp at hmt
          | dict d2 => simp at hmt
      obtain ⟨rm, hrm, hrmw⟩ := hmet_list
      obtain ⟨flat, hflat_eq, hflm⟩ := flatten_fold_ok rm [] hrmw (by simp)
      obtain ⟨mets0, hmets0_eq, hMOnly, hNT⟩ :=
        metric_fold_ok flat [] hflm (fun k v hv => by simp [dget] at hv) ⟨rfl, rfl⟩
      have htg_parts : ∃ traw tl,
          py_get_default ((dget wd "target_metrics_performance_data").getD (.dict []))
            "target_metrics" = .ok traw ∧
          iter_elems traw = .ok tl ∧ ∀ t ∈ tl, wf_target t = true := by
        unfold wf_targets_field at htg
        cases hg : dget wd "target_metrics_performance_data" with
        | none =>
          exact ⟨.list [], [], by simp [py_get_default, hg, dget],
            by simp [iter_elems], by simp⟩
        | some v =>
          rw [hg] at htg
          cases v with
          | dict t =>
            have htg2 : (match dget t "target_metrics" with
                         | none => true
                         | some (.list xs) => xs.all wf_target
                         | some _ => false) = true := htg
            cases hg2 : dget t "target_metrics" with
            | none =>
              exact ⟨.list [], [], by simp [py_get_default, hg, hg2],
                by simp [iter_elems], by simp⟩
            | some v2 =>
              rw [hg2] at htg2
              cases v2 with
              | list xs =>
                exact ⟨.list xs, xs, by simp [py_get_default, hg, hg2],
                  by simp [iter_elems], fun t2 ht2 => List.all_eq_true.mp htg2 t2 ht2⟩
              | null => simp at htg2
              | boolean b => simp at htg2
              | int n => simp at htg2
              | float q => simp at htg2
              | str s => simp at htg2
              | dict d3 => simp at htg2
          | null => simp at htg
          | boolean b => simp at htg
          | int n => simp at htg
          | float q => simp at htg
          | str s => simp at htg
          | list xs => simp at htg
      obtain ⟨traw, tl, htraw, htl_iter, htlw⟩ := htg_parts
      obtain ⟨el, hel⟩ := compute_elapsed_ok now hst
      obtain ⟨mets, hmets_eq, htr⟩ := target_fold_ok el tl mets0 htlw
      have hmk : ∀ k v, k ≠ "target_speed" → k ≠ "target_incline" →
          dget mets k = some v → ∃ pm, v = SData.metric pm := by
        intro k v hk1 hk2 hv
        rw [htr.1 k hk1 hk2] at hv
        exact hMOnly _ _ hv
      have htk : ∀ k v, k = "target_speed" ∨ k = "target_incline" →
          dget mets k = some v → ∃ u lo, v = SData.tdict u lo := by
        intro k v hk hv
        rcases htr.2 k v hv with hb | ht2
        · exfalso
          rcases hk with rfl | rfl
          · rw [hNT.1] at hb; exact Option.noConfusion hb
          · rw [hNT.2] at hb; exact Option.noConfusion hb
        · exact ht2
      obtain ⟨l, hl⟩ := assemble_ok zone hst het hrd hSOnly hmk htk
      refine ⟨l, ?_⟩
      simp [compile_quant_data, as_dict, hzone, hrs, hsums_eq, hrm, hflat_eq,
        hmets0_eq, htraw, htl_iter, hel, hmets_eq, hl, Bind.bind, Except.bind]
    | null => simp [wf_input] at h
    | boolean b => simp [wf_input] at h
    | int n => simp [wf_input] at h
    | float q => simp [wf_input] at h
    | str s => simp [wf_input] at h
    | list xs => simp [wf_input] at h
  | null => simp [wf_input] at h
  | boolean b => simp [wf_input] at h
  | int n => simp [wf_input] at h
  | float q => simp [wf_input] at h
  | str s => simp [wf_input] at h
  | list xs => simp [wf_input] at h

/-- A rich well-formed summary document for the C7 witness. -/
def ws_wit : JValue :=
  .dict [("timezone", .str "UTC"), ("start_time", .int 1000), ("end_time", .int 1600),
    ("ride", .dict [("duration", .int 600)])]

/-- A rich well-formed detail document for the C7 witness. -/
def wd_wit : JValue :=
  .dict [("summaries", .list [.dict [("slug", .str "calories"), ("value", .int 250)]]),
    ("metrics", .list [.dict [("slug", .str "speed"),
      ("values", .list [.float ⟨12, 10⟩])]]),
    ("target_metrics_performance_data", .dict [("target_metrics", .list
      [.dict [("offsets", .dict [("start", .int 0), ("end", .int 600)]),
        ("metrics", .list [.dict [("name", .str "incline"), ("upper", .int 5),
          ("lower", .int 2)]])]])])]

/-- Witness for C7 (amended) at a concrete well-formed input. -/
theorem compile_no_exception_on_wf_witness :
    wf_input ws_wit wd_wit = true ∧
      ∃ l, compile_quant_data ws_wit wd_wit 1100 = .ok l :=
  ⟨by decide, compile_no_exception_on_wf ws_wit wd_wit 1100 (by decide)⟩
